/-
  Verification of the SoftTimerScheduler (Portenta_H7_ISR_Timer) against its
  natural-language specification.

  Shallow embedding of src/libraries/Portenta_H7_TimerInterrupt-main/src/
  Portenta_H7_ISR_Timer-Impl.h.  The platform is a 32-bit ARM board, so the C
  types `unsigned`, `unsigned long` and `int` are all 32 bits wide; machine
  integers are modelled as `Nat` (resp. `Int` for the signed `numTimers`
  member) with explicit reduction modulo 2^32 wherever the C code performs
  unsigned arithmetic.  The millisecond clock `millis()` is passed to each
  operation as an explicit `now` argument.  Callback pointers are modelled as
  `Option Nat` (`none` = NULL); invoking a callback is modelled by recording a
  `Dispatch` event, since callbacks are opaque to the scheduler core.
-/
import Mathlib

namespace SoftTimer

/-- Width of the 32-bit machine words (`unsigned`, `unsigned long`, `int`). -/
def W : Nat := 2 ^ 32

/-- Modelled from the spec: the header `Portenta_H7_ISR_Timer.h` declaring the
capacity constant is not under src/; the spec calls it a compile-time bound
`MAX_NUMBER_TIMERS`, and the implementation file's own comment fixes it at
"16 ISR-based timers". -/
def MAX_NUMBER_TIMERS : Nat := 16

/-- Modelled from the spec: the header declaring the sentinel run counts is
not under src/.  `RUN_FOREVER` is the sentinel that disables auto-deletion,
`RUN_ONCE = 1`; upstream the sentinel's numeric value is 0, so that a timer
registered through `setInterval` never enters the finite-run branch. -/
def TIMER_RUN_FOREVER : Nat := 0

/-- Modelled from the spec: sentinel meaning "exactly one execution". -/
def TIMER_RUN_ONCE : Nat := 1

/-- The per-tick dispatch mark (`TIMER_DEFCALL_DONTRUN` / `RUNONLY` /
`RUNANDDEL`); modelled from the spec's `dispatchState ∈ {DontRun, RunOnly,
RunAndDelete}` since the header with the numeric defines is not under src/.
The `memset`-zeroed value is `dontRun`. -/
inductive DefCall where
  | dontRun
  | runOnly
  | runAndDel
deriving DecidableEq, Repr

/-- One slot of the timer array (struct `timer_t`). -/
structure timer_t where
  prev_millis : Nat
  delay : Nat
  callback : Option Nat
  param : Nat
  hasParam : Bool
  maxNumRuns : Nat
  enabled : Bool
  numRuns : Nat
  toBeCalled : DefCall
deriving DecidableEq, Repr

/-- A `memset`-zeroed slot: every field zero, the callback pointer NULL. -/
def timer_t.zero : timer_t :=
  { prev_millis := 0, delay := 0, callback := none, param := 0,
    hasParam := false, maxNumRuns := 0, enabled := false, numRuns := 0,
    toBeCalled := .dontRun }

/-- Wrapping unsigned subtraction `a - b` on 32-bit words. -/
def usub (a b : Nat) : Nat := (a % W + (W - b % W)) % W

/-- The scheduler object: the fixed array `timer[MAX_NUMBER_TIMERS]` (a list
that always has `MAX_NUMBER_TIMERS` entries) plus the signed counter
`numTimers`. -/
structure ISR_Timer where
  timer : List timer_t
  numTimers : Int
deriving DecidableEq, Repr

/-- The C++ constructor: `numTimers` is set to −1 and the slot array is left
uninitialized (arbitrary contents `garbage`). -/
def construct (garbage : List timer_t) : ISR_Timer :=
  { timer := garbage, numTimers := -1 }

/-- The result of `memset`-zeroing a slot and stamping its `prev_millis` with
the current time, as `init` and `deleteTimer` do. -/
def freshSlot (now : Nat) : timer_t :=
  { timer_t.zero with prev_millis := now % W }

/-- `init()`: zero every slot, stamp `prev_millis` with the current time, set
`numTimers` to 0. -/
def init (now : Nat) : ISR_Timer :=
  { timer := List.replicate MAX_NUMBER_TIMERS (freshSlot now),
    numTimers := 0 }

/-- Read slot `i` of the array (the array always has `MAX_NUMBER_TIMERS`
entries; out-of-range reads never happen in the code, which bounds-checks
first). -/
def nth : List timer_t → Nat → timer_t
  | [], _ => timer_t.zero
  | t :: _, 0 => t
  | _ :: ts, i + 1 => nth ts i

/-- The scan of `findFirstFreeSlot()`: index of the first slot whose callback
is NULL, if any. -/
def firstFreeIdx : List timer_t → Option Nat
  | [] => none
  | t :: ts =>
    if t.callback.isNone then some 0 else (firstFreeIdx ts).map (· + 1)

/-- `findFirstFreeSlot()`: −1 when `numTimers ≥ MAX_NUMBER_TIMERS`, else the
first index whose callback is NULL, else −1. -/
def findFirstFreeSlot (s : ISR_Timer) : Int :=
  if s.numTimers ≥ (MAX_NUMBER_TIMERS : Int) then -1
  else
    match firstFreeIdx s.timer with
    | some i => (i : Int)
    | none => -1

/-- The field assignments `setupTimer` performs on the chosen free slot
(the other fields, `numRuns` and `toBeCalled`, are left as they were; the
`unsigned` arguments are 32-bit, hence the reductions mod `W`). -/
def populatedSlot (old : timer_t) (now d : Nat) (f : Option Nat) (p : Nat)
    (h : Bool) (n : Nat) : timer_t :=
  { old with
    delay := d % W, callback := f, param := p, hasParam := h,
    maxNumRuns := n % W, enabled := true, prev_millis := now % W }

/-- `setupTimer(d, f, p, h, n)`: lazy `init` when never initialized, fail with
−1 on no free slot or NULL callback, else populate the slot and increment
`numTimers`.  Returns the slot index (or −1) together with the new state. -/
def setupTimer (s : ISR_Timer) (now : Nat) (d : Nat) (f : Option Nat)
    (p : Nat) (h : Bool) (n : Nat) : Int × ISR_Timer :=
  let s := if s.numTimers < 0 then init now else s
  let freeTimer := findFirstFreeSlot s
  if freeTimer < 0 then (-1, s)
  else if f = none then (-1, s)
  else
    let i := freeTimer.toNat
    let t := populatedSlot (nth s.timer i) now d f p h n
    ((i : Int), { s with timer := s.timer.set i t,
                         numTimers := s.numTimers + 1 })

/-- `setInterval(d, f)`: register with `TIMER_RUN_FOREVER`. -/
def setInterval (s : ISR_Timer) (now : Nat) (d : Nat) (f : Option Nat) :
    Int × ISR_Timer :=
  setupTimer s now d f 0 false TIMER_RUN_FOREVER

/-- `setTimeout(d, f)`: register with `TIMER_RUN_ONCE`. -/
def setTimeout (s : ISR_Timer) (now : Nat) (d : Nat) (f : Option Nat) :
    Int × ISR_Timer :=
  setupTimer s now d f 0 false TIMER_RUN_ONCE

/-- `changeInterval(numTimer, d)`: false on out-of-range id or unused slot;
else update `delay`, reset `prev_millis` to now, return true. -/
def changeInterval (s : ISR_Timer) (now : Nat) (numTimer : Nat) (d : Nat) :
    Bool × ISR_Timer :=
  if numTimer ≥ MAX_NUMBER_TIMERS then (false, s)
  else
    let t := nth s.timer numTimer
    if t.callback ≠ none then
      let t' := { t with delay := d % W, prev_millis := now % W }
      (true, { s with timer := s.timer.set numTimer t' })
    else (false, s)

/-- `deleteTimer(timerId)`: no-op when out of range, when `numTimers == 0`, or
when the slot is already free; else zero the slot, stamp `prev_millis`,
decrement `numTimers`. -/
def deleteTimer (s : ISR_Timer) (now : Nat) (timerId : Nat) : ISR_Timer :=
  if timerId ≥ MAX_NUMBER_TIMERS then s
  else if s.numTimers = 0 then s
  else if (nth s.timer timerId).callback ≠ none then
    { s with timer := s.timer.set timerId (freshSlot now),
             numTimers := s.numTimers - 1 }
  else s

/-- `restartTimer(numTimer)`: reset `prev_millis`; out-of-range is a no-op. -/
def restartTimer (s : ISR_Timer) (now : Nat) (numTimer : Nat) : ISR_Timer :=
  if numTimer ≥ MAX_NUMBER_TIMERS then s
  else
    let t' := { nth s.timer numTimer with prev_millis := now % W }
    { s with timer := s.timer.set numTimer t' }

/-- `isEnabled(numTimer)`: false when out of range, else the flag. -/
def isEnabled (s : ISR_Timer) (numTimer : Nat) : Bool :=
  if numTimer ≥ MAX_NUMBER_TIMERS then false
  else (nth s.timer numTimer).enabled

/-- `enable(numTimer)`: set the flag; out-of-range is a no-op. -/
def enable (s : ISR_Timer) (numTimer : Nat) : ISR_Timer :=
  if numTimer ≥ MAX_NUMBER_TIMERS then s
  else
    let t' := { nth s.timer numTimer with enabled := true }
    { s with timer := s.timer.set numTimer t' }

/-- `disable(numTimer)`: clear the flag; out-of-range is a no-op. -/
def disable (s : ISR_Timer) (numTimer : Nat) : ISR_Timer :=
  if numTimer ≥ MAX_NUMBER_TIMERS then s
  else
    let t' := { nth s.timer numTimer with enabled := false }
    { s with timer := s.timer.set numTimer t' }

/-- `toggle(numTimer)`: invert the flag; out-of-range is a no-op. -/
def toggle (s : ISR_Timer) (numTimer : Nat) : ISR_Timer :=
  if numTimer ≥ MAX_NUMBER_TIMERS then s
  else
    let t' := { nth s.timer numTimer with
                enabled := !(nth s.timer numTimer).enabled }
    { s with timer := s.timer.set numTimer t' }

/-- `enableAll()`: set `enabled` on every slot with a callback assigned whose
`numRuns` equals `TIMER_RUN_FOREVER` (the loop runs over the whole array). -/
def enableAll (s : ISR_Timer) : ISR_Timer :=
  { s with timer := s.timer.map (fun t =>
      if t.callback.isSome && (t.numRuns == TIMER_RUN_FOREVER) then
        { t with enabled := true }
      else t) }

/-- `disableAll()`: clear `enabled` on every slot with a callback assigned
whose `numRuns` equals `TIMER_RUN_FOREVER`. -/
def disableAll (s : ISR_Timer) : ISR_Timer :=
  { s with timer := s.timer.map (fun t =>
      if t.callback.isSome && (t.numRuns == TIMER_RUN_FOREVER) then
        { t with enabled := false }
      else t) }

/-- `getNumTimers()`: the signed `numTimers` converted to `unsigned`. -/
def getNumTimers (s : ISR_Timer) : Nat := (s.numTimers % (W : Int)).toNat

/-- One invocation of a timer callback during the dispatch phase of `run()`:
the slot index, the callback pointer, and which call shape was used. -/
structure Dispatch where
  idx : Nat
  cb : Option Nat
  hasParam : Bool
  param : Nat
deriving DecidableEq, Repr

/-- The scan-phase body of `run()` for one slot: reset `toBeCalled`, and for
an in-use slot whose wrapped elapsed time has reached `delay`, advance
`prev_millis` by whole multiples of `delay` and compute the dispatch mark.
`none` models the division by zero the C code reaches when `delay == 0`. -/
def scanSlot (current : Nat) (t : timer_t) : Option timer_t :=
  let t := { t with toBeCalled := DefCall.dontRun }
  match t.callback with
  | none => some t
  | some _ =>
    if usub current t.prev_millis ≥ t.delay then
      if t.delay = 0 then none
      else
        let skipTimes := usub current t.prev_millis / t.delay
        let t := { t with
          prev_millis := (t.prev_millis + t.delay * skipTimes) % W }
        if t.enabled then
          if t.maxNumRuns = TIMER_RUN_FOREVER then
            some { t with toBeCalled := DefCall.runOnly }
          else if t.numRuns < t.maxNumRuns then
            let t := { t with toBeCalled := DefCall.runOnly,
                              numRuns := (t.numRuns + 1) % W }
            if t.numRuns ≥ t.maxNumRuns then
              some { t with toBeCalled := DefCall.runAndDel }
            else some t
          else some t
        else some t
    else some t

/-- The scan phase of `run()`: the first `for` loop, applied to every slot. -/
def scanList (current : Nat) : List timer_t → Option (List timer_t)
  | [] => some []
  | t :: ts =>
    match scanSlot current t, scanList current ts with
    | some t', some ts' => some (t' :: ts')
    | _, _ => none

/-- The dispatch phase of `run()`: the second `for` loop.  For each index in
order, skip `dontRun` slots, otherwise record the callback invocation and,
on `runAndDel`, delete the slot immediately after the call. -/
def dispatchIdx (current : Nat) : List Nat → ISR_Timer →
    ISR_Timer × List Dispatch
  | [], s => (s, [])
  | i :: is, s =>
    let t := nth s.timer i
    if t.toBeCalled = DefCall.dontRun then dispatchIdx current is s
    else
      let d : Dispatch :=
        { idx := i, cb := t.callback, hasParam := t.hasParam,
          param := t.param }
      let s' := if t.toBeCalled = DefCall.runAndDel then
                  deleteTimer s current i
                else s
      let r := dispatchIdx current is s'
      (r.1, d :: r.2)

/-- `run()`: read the clock (`current_millis = millis()`, modelled as
`now % W`), scan every slot, then dispatch the marked ones in index order.
`none` models the division by zero reached in the scan when an in-use slot
has `delay == 0`. -/
def run (s : ISR_Timer) (now : Nat) : Option (ISR_Timer × List Dispatch) :=
  match scanList (now % W) s.timer with
  | none => none
  | some ts =>
    some (dispatchIdx (now % W) (List.range MAX_NUMBER_TIMERS)
            { s with timer := ts })

/-- A sequence of `run()` calls at the given clock readings, accumulating the
dispatched invocations. -/
def runSeq (s : ISR_Timer) : List Nat → Option (ISR_Timer × List Dispatch)
  | [] => some (s, [])
  | now :: rest =>
    match run s now with
    | none => none
    | some (s', ds) =>
      match runSeq s' rest with
      | none => none
      | some (s'', ds') => some (s'', ds ++ ds')

/-- An in-use slot: a slot whose callback pointer is assigned. -/
def inUse (t : timer_t) : Bool := t.callback.isSome

/-- Number of entries of the slot array satisfying `p`. -/
def cnt (p : timer_t → Bool) : List timer_t → Nat
  | [] => 0
  | t :: ts => (if p t then 1 else 0) + cnt p ts

/-- The data-model invariant claimed by the spec: the array has exactly
`MAX_NUMBER_TIMERS` entries and `numTimers` equals the number of in-use
slots (hence, in particular, `numTimers ≤ MAX_NUMBER_TIMERS`). -/
abbrev Inv (s : ISR_Timer) : Prop :=
  s.timer.length = MAX_NUMBER_TIMERS ∧
  s.numTimers = (cnt inUse s.timer : Int)

/-- Slot `i` currently holds a live registration with callback `c`, period
`d`, target run count `n`, completed-run counter `k`, and is enabled. -/
abbrev armed (s : ISR_Timer) (i c d n k : Nat) : Prop :=
  (nth s.timer i).callback = some c ∧ (nth s.timer i).delay = d ∧
  (nth s.timer i).maxNumRuns = n ∧ (nth s.timer i).enabled = true ∧
  (nth s.timer i).numRuns = k

/-- Arguments of one registration call (`setupTimer`). -/
structure RegArgs where
  now : Nat
  d : Nat
  f : Option Nat
  p : Nat
  h : Bool
  n : Nat
deriving DecidableEq, Repr

/-- A sequence of `setupTimer` calls, collecting the returned slot ids. -/
def regMany (s : ISR_Timer) : List RegArgs → List Int × ISR_Timer
  | [] => ([], s)
  | a :: as =>
    let r := setupTimer s a.now a.d a.f a.p a.h a.n
    let rest := regMany r.2 as
    (r.1 :: rest.1, rest.2)

/-- States reachable from `init` by the public operations; a `run` step is
taken only when it completes (does not hit the division by zero). -/
inductive Reachable : ISR_Timer → Prop where
  | initial (now : Nat) : Reachable (init now)
  | setup (s : ISR_Timer) (now d : Nat) (f : Option Nat) (p : Nat) (h : Bool)
      (n : Nat) : Reachable s → Reachable (setupTimer s now d f p h n).2
  | tick (s : ISR_Timer) (now : Nat) (s' : ISR_Timer) (ds : List Dispatch) :
      Reachable s → run s now = some (s', ds) → Reachable s'
  | del (s : ISR_Timer) (now i : Nat) : Reachable s →
      Reachable (deleteTimer s now i)
  | restart (s : ISR_Timer) (now i : Nat) : Reachable s →
      Reachable (restartTimer s now i)
  | change (s : ISR_Timer) (now i d : Nat) : Reachable s →
      Reachable (changeInterval s now i d).2
  | en (s : ISR_Timer) (i : Nat) : Reachable s → Reachable (enable s i)
  | dis (s : ISR_Timer) (i : Nat) : Reachable s → Reachable (disable s i)
  | tog (s : ISR_Timer) (i : Nat) : Reachable s → Reachable (toggle s i)
  | enAll (s : ISR_Timer) : Reachable s → Reachable (enableAll s)
  | disAll (s : ISR_Timer) : Reachable s → Reachable (disableAll s)

/-! ### Basic lemmas about the slot array -/

theorem nth_set_self (l : List timer_t) (i : Nat) (t : timer_t)
    (h : i < l.length) : nth (l.set i t) i = t := by
  induction l generalizing i with
  | nil => simp at h
  | cons a l ih =>
    cases i with
    | zero => rfl
    | succ j => exact ih j (by simpa using h)

theorem nth_set_ne (l : List timer_t) (i j : Nat) (t : timer_t)
    (h : i ≠ j) : nth (l.set i t) j = nth l j := by
  induction l generalizing i j with
  | nil => rfl
  | cons a l ih =>
    cases i with
    | zero =>
      cases j with
      | zero => exact absurd rfl h
      | succ j' => rfl
    | succ i' =>
      cases j with
      | zero => rfl
      | succ j' => exact ih i' j' (fun hc => h (by rw [hc]))

theorem nth_replicate (n i : Nat) (t : timer_t) (h : i < n) :
    nth (List.replicate n t) i = t := by
  induction n generalizing i with
  | zero => simp at h
  | succ m ih =>
    cases i with
    | zero => rfl
    | succ j => exact ih j (by omega)

theorem cnt_set (p : timer_t → Bool) (l : List timer_t) (i : Nat)
    (t : timer_t) (h : i < l.length) :
    cnt p (l.set i t) + (if p (nth l i) then 1 else 0) =
      cnt p l + (if p t then 1 else 0) := by
  induction l generalizing i with
  | nil => simp at h
  | cons a l ih =>
    cases i with
    | zero => simp [cnt, nth]; omega
    | succ j =>
      have := ih j (by simpa using h)
      simp only [List.set, cnt, nth]
      omega

theorem cnt_pos_of_nth (p : timer_t → Bool) (l : List timer_t) (i : Nat)
    (hi : i < l.length) (hp : p (nth l i) = true) : 0 < cnt p l := by
  induction l generalizing i with
  | nil => simp at hi
  | cons a l ih =>
    cases i with
    | zero => simp [cnt, nth] at hp ⊢; simp [hp]
    | succ j =>
      have := ih j (by simpa using hi) hp
      simp [cnt]; omega

theorem cnt_le_length (p : timer_t → Bool) (l : List timer_t) :
    cnt p l ≤ l.length := by
  induction l with
  | nil => simp [cnt]
  | cons a l ih =>
    by_cases h : p a <;> simp [cnt, h] <;> omega

theorem cnt_replicate (p : timer_t → Bool) (n : Nat) (t : timer_t)
    (h : p t = false) : cnt p (List.replicate n t) = 0 := by
  induction n with
  | zero => rfl
  | succ m ih => simp [List.replicate, cnt, h, ih]

/-! ### Lemmas about `firstFreeIdx` -/

theorem firstFreeIdx_spec (l : List timer_t) (i : Nat)
    (h : firstFreeIdx l = some i) :
    i < l.length ∧ (nth l i).callback = none ∧
      ∀ j, j < i → (nth l j).callback ≠ none := by
  induction l generalizing i with
  | nil => simp [firstFreeIdx] at h
  | cons a l ih =>
    by_cases ha : a.callback.isNone
    · have : i = 0 := by simp [firstFreeIdx, ha] at h; omega
      subst this
      refine ⟨by simp, ?_, by omega⟩
      simpa [nth, Option.isNone_iff_eq_none] using ha
    · simp only [firstFreeIdx, ha, if_neg, Bool.false_eq_true,
        not_false_iff, if_false, Option.map_eq_some'] at h
      obtain ⟨i', hi', rfl⟩ := h
      obtain ⟨h1, h2, h3⟩ := ih i' hi'
      refine ⟨by simpa using h1, h2, ?_⟩
      intro j hj
      cases j with
      | zero =>
        simpa [nth, Option.isNone_iff_eq_none] using ha
      | succ j' => exact h3 j' (by omega)

theorem firstFreeIdx_eq_some (l : List timer_t) (i : Nat)
    (hi : i < l.length) (hfree : (nth l i).callback = none)
    (hbefore : ∀ j, j < i → (nth l j).callback ≠ none) :
    firstFreeIdx l = some i := by
  induction l generalizing i with
  | nil => simp at hi
  | cons a l ih =>
    cases i with
    | zero =>
      have : a.callback.isNone := by simp [nth] at hfree; simp [hfree]
      simp [firstFreeIdx, this]
    | succ i' =>
      have ha : ¬ a.callback.isNone := by
        have := hbefore 0 (by omega)
        simp [nth] at this
        simpa [Option.isNone_iff_eq_none] using this
      have := ih i' (by simpa using hi) hfree
        (fun j hj => hbefore (j + 1) (by omega))
      simp [firstFreeIdx, ha, this]

theorem firstFreeIdx_none (l : List timer_t)
    (h : firstFreeIdx l = none) :
    ∀ i, i < l.length → (nth l i).callback ≠ none := by
  induction l with
  | nil => simp
  | cons a l ih =>
    by_cases ha : a.callback.isNone
    · simp [firstFreeIdx, ha] at h
    · intro i hi
      cases i with
      | zero => simpa [nth, Option.isNone_iff_eq_none] using ha
      | succ j =>
        simp only [firstFreeIdx, ha, Bool.false_eq_true, if_false,
          Option.map_eq_none'] at h
        exact ih h j (by simpa using hi)

/-! ### Characterization of the scan phase, slot by slot -/

/-- Abbreviation for the phase-preserving advance of `prev_millis`. -/
def advPrev (current : Nat) (t : timer_t) : Nat :=
  (t.prev_millis + t.delay * (usub current t.prev_millis / t.delay)) % W

theorem scanSlot_none_iff (c : Nat) (t : timer_t) :
    scanSlot c t = none ↔ t.callback ≠ none ∧ t.delay = 0 := by
  unfold scanSlot
  cases hcb : t.callback with
  | none => simp [hcb]
  | some cb =>
    simp only [hcb]
    split_ifs with hdue h0 hen hfor hlt hge <;> simp_all <;> omega

theorem scanSlot_fields (c : Nat) (t t' : timer_t)
    (h : scanSlot c t = some t') :
    t'.callback = t.callback ∧ t'.delay = t.delay ∧ t'.param = t.param ∧
      t'.hasParam = t.hasParam ∧ t'.maxNumRuns = t.maxNumRuns ∧
      t'.enabled = t.enabled := by
  unfold scanSlot at h
  cases hcb : t.callback with
  | none => simp [hcb] at h; subst h; simp
  | some cb =>
    simp only [hcb] at h
    split_ifs at h <;> (injection h with h; subst h; simp)

theorem scanSlot_free (c : Nat) (t : timer_t) (h : t.callback = none) :
    scanSlot c t = some { t with toBeCalled := DefCall.dontRun } := by
  unfold scanSlot
  simp [h]

theorem scanSlot_not_due (c : Nat) (t : timer_t) (cb : Nat)
    (hcb : t.callback = some cb) (h : usub c t.prev_millis < t.delay) :
    scanSlot c t = some { t with toBeCalled := DefCall.dontRun } := by
  unfold scanSlot
  simp [hcb, Nat.not_le.mpr h]

theorem scanSlot_disabled_due (c : Nat) (t : timer_t) (cb : Nat)
    (hcb : t.callback = some cb) (hen : t.enabled = false)
    (h0 : t.delay ≠ 0) (hdue : t.delay ≤ usub c t.prev_millis) :
    scanSlot c t = some { t with toBeCalled := DefCall.dontRun,
                                 prev_millis := advPrev c t } := by
  unfold scanSlot
  simp [hcb, hdue, h0, hen, advPrev]

theorem scanSlot_forever (c : Nat) (t : timer_t) (cb : Nat)
    (hcb : t.callback = some cb) (hen : t.enabled = true)
    (h0 : t.delay ≠ 0) (hdue : t.delay ≤ usub c t.prev_millis)
    (hmax : t.maxNumRuns = TIMER_RUN_FOREVER) :
    scanSlot c t = some { t with toBeCalled := DefCall.runOnly,
                                 prev_millis := advPrev c t } := by
  unfold scanSlot
  simp [hcb, hdue, h0, hen, hmax, advPrev]

theorem scanSlot_finite_step (c : Nat) (t : timer_t) (cb : Nat)
    (hcb : t.callback = some cb) (hen : t.enabled = true)
    (h0 : t.delay ≠ 0) (hdue : t.delay ≤ usub c t.prev_millis)
    (hmax : t.maxNumRuns ≠ TIMER_RUN_FOREVER)
    (hlt : t.numRuns < t.maxNumRuns) (hW : t.numRuns + 1 < W) :
    scanSlot c t = some { t with
      prev_millis := advPrev c t,
      numRuns := t.numRuns + 1,
      toBeCalled := if t.maxNumRuns ≤ t.numRuns + 1 then DefCall.runAndDel
                    else DefCall.runOnly } := by
  unfold scanSlot
  simp only [hcb, hdue, h0, hen, hmax, hlt, advPrev, Nat.mod_eq_of_lt hW,
    ge_iff_le, if_true, if_false, ite_true, ite_false, if_pos, dite_eq_ite]
  split_ifs with h1 <;> simp_all

theorem scanSlot_finite_done (c : Nat) (t : timer_t) (cb : Nat)
    (hcb : t.callback = some cb) (hen : t.enabled = true)
    (h0 : t.delay ≠ 0) (hdue : t.delay ≤ usub c t.prev_millis)
    (hmax : t.maxNumRuns ≠ TIMER_RUN_FOREVER)
    (hge : ¬ t.numRuns < t.maxNumRuns) :
    scanSlot c t = some { t with toBeCalled := DefCall.dontRun,
                                 prev_millis := advPrev c t } := by
  unfold scanSlot
  simp [hcb, hdue, h0, hen, hmax, hge, advPrev]

/-! ### The scan phase over the whole array -/

theorem scanList_length (c : Nat) (l l' : List timer_t)
    (h : scanList c l = some l') : l'.length = l.length := by
  induction l generalizing l' with
  | nil => simp [scanList] at h; subst h; rfl
  | cons t ts ih =>
    unfold scanList at h
    cases h1 : scanSlot c t with
    | none => simp [h1] at h
    | some t1 =>
      cases h2 : scanList c ts with
      | none => simp [h1, h2] at h
      | some ts1 =>
        simp [h1, h2] at h
        subst h
        simp [ih ts1 h2]

theorem scanList_nth (c : Nat) (l l' : List timer_t)
    (h : scanList c l = some l') (i : Nat) (hi : i < l.length) :
    scanSlot c (nth l i) = some (nth l' i) := by
  induction l generalizing l' i with
  | nil => simp at hi
  | cons t ts ih =>
    unfold scanList at h
    cases h1 : scanSlot c t with
    | none => simp [h1] at h
    | some t1 =>
      cases h2 : scanList c ts with
      | none => simp [h1, h2] at h
      | some ts1 =>
        simp [h1, h2] at h
        subst h
        cases i with
        | zero => simpa [nth] using h1
        | succ j => exact ih ts1 h2 j (by simpa using hi)

theorem scanList_none_of (c : Nat) (l : List timer_t) (i : Nat)
    (hi : i < l.length) (h : scanSlot c (nth l i) = none) :
    scanList c l = none := by
  induction l generalizing i with
  | nil => simp at hi
  | cons t ts ih =>
    cases i with
    | zero =>
      unfold scanList
      simp only [nth] at h
      simp [h]
    | succ j =>
      have hrec := ih j (by simpa using hi) h
      unfold scanList
      cases h1 : scanSlot c t <;> simp [h1, hrec]

/-! ### More counting lemmas -/

theorem cnt_eq_of_nth (p : timer_t → Bool) (l l' : List timer_t)
    (hlen : l.length = l'.length)
    (h : ∀ j, j < l.length → p (nth l j) = p (nth l' j)) :
    cnt p l = cnt p l' := by
  induction l generalizing l' with
  | nil => cases l' with
    | nil => rfl
    | cons b m => simp at hlen
  | cons a m ih =>
    cases l' with
    | nil => simp at hlen
    | cons b m' =>
      have h0 := h 0 (by simp)
      simp only [nth] at h0
      have hrest := ih m' (by simpa using hlen)
        (fun j hj => h (j + 1) (by simpa using hj))
      simp [cnt, h0, hrest]

theorem cnt_flip (p : timer_t → Bool) (l l' : List timer_t) (i : Nat)
    (hlen : l.length = l'.length) (hi : i < l.length)
    (hpt : p (nth l i) = true) (hpf : p (nth l' i) = false)
    (h : ∀ j, j < l.length → j ≠ i → p (nth l j) = p (nth l' j)) :
    cnt p l = cnt p l' + 1 := by
  induction l generalizing l' i with
  | nil => simp at hi
  | cons a m ih =>
    cases l' with
    | nil => simp at hlen
    | cons b m' =>
      cases i with
      | zero =>
        simp only [nth] at hpt hpf
        have hrest := cnt_eq_of_nth p m m' (by simpa using hlen)
          (fun j hj => by
            have := h (j + 1) (by simpa using hj) (by omega)
            simpa [nth] using this)
        simp [cnt, hpt, hpf, hrest]
        omega
      | succ i' =>
        have h0 := h 0 (by simp) (by omega)
        simp only [nth] at h0
        have hrest := ih m' i' (by simpa using hlen) (by simpa using hi)
          hpt hpf
          (fun j hj hne => by
            have := h (j + 1) (by simpa using hj) (by omega)
            simpa [nth] using this)
        simp [cnt, h0, hrest]
        omega

/-! ### Lemmas about `deleteTimer` -/

theorem deleteTimer_nth_ne (s : ISR_Timer) (now j i : Nat) (h : j ≠ i) :
    nth (deleteTimer s now j).timer i = nth s.timer i := by
  unfold deleteTimer
  split_ifs <;> simp [nth_set_ne _ _ _ _ h]

theorem deleteTimer_inuse (s : ISR_Timer) (now i : Nat)
    (hi : i < MAX_NUMBER_TIMERS) (hnz : s.numTimers ≠ 0)
    (hcb : (nth s.timer i).callback ≠ none) :
    deleteTimer s now i =
      { s with timer := s.timer.set i (freshSlot now),
               numTimers := s.numTimers - 1 } := by
  unfold deleteTimer
  simp [Nat.not_le.mpr hi, hnz, hcb]

theorem deleteTimer_free (s : ISR_Timer) (now i : Nat)
    (hcb : (nth s.timer i).callback = none) :
    deleteTimer s now i = s := by
  unfold deleteTimer
  split_ifs with h1 h2 h3 <;> simp_all

theorem deleteTimer_Inv (s : ISR_Timer) (now i : Nat) (hs : Inv s) :
    Inv (deleteTimer s now i) := by
  obtain ⟨hlen, hcnt⟩ := hs
  by_cases h1 : MAX_NUMBER_TIMERS ≤ i
  · have hid : deleteTimer s now i = s := by unfold deleteTimer; simp [h1]
    rw [hid]; exact ⟨hlen, hcnt⟩
  by_cases h2 : s.numTimers = 0
  · have hid : deleteTimer s now i = s := by
      unfold deleteTimer; simp [h1, h2]
    rw [hid]; exact ⟨hlen, hcnt⟩
  by_cases h3 : (nth s.timer i).callback = none
  · rw [deleteTimer_free s now i h3]; exact ⟨hlen, hcnt⟩
  · rw [deleteTimer_inuse s now i (by omega) h2 h3]
    have hi : i < s.timer.length := by omega
    have hpt : inUse (nth s.timer i) = true := by
      simp [inUse, Option.isSome_iff_ne_none, h3]
    have hstep := cnt_flip inUse s.timer
      (s.timer.set i (freshSlot now)) i
      (by simp) hi hpt
      (by simp [nth_set_self _ _ _ hi, inUse, freshSlot, timer_t.zero])
      (fun j hj hne => by simp [nth_set_ne _ _ _ _ (fun hc => hne hc.symm)])
    unfold Inv
    refine ⟨by simpa using hlen, ?_⟩
    simp only
    omega

/-! ### Lemmas about the dispatch phase -/

theorem dispatchIdx_cons (c j : Nat) (js : List Nat) (s : ISR_Timer) :
    dispatchIdx c (j :: js) s =
      if (nth s.timer j).toBeCalled = DefCall.dontRun then
        dispatchIdx c js s
      else
        ((dispatchIdx c js
            (if (nth s.timer j).toBeCalled = DefCall.runAndDel then
              deleteTimer s c j else s)).1,
         { idx := j, cb := (nth s.timer j).callback,
           hasParam := (nth s.timer j).hasParam,
           param := (nth s.timer j).param } ::
           (dispatchIdx c js
             (if (nth s.timer j).toBeCalled = DefCall.runAndDel then
               deleteTimer s c j else s)).2) := by
  simp only [dispatchIdx]

theorem dispatchIdx_count_le (c : Nat) (is : List Nat) (s : ISR_Timer)
    (i : Nat) :
    ((dispatchIdx c is s).2.map Dispatch.idx).count i ≤ is.count i := by
  induction is generalizing s with
  | nil => simp [dispatchIdx]
  | cons j js ih =>
    rw [dispatchIdx_cons]
    split_ifs with h1 h2
    · have := ih s
      simp only [List.count_cons]
      omega
    · have := ih (deleteTimer s c j)
      simp only [List.map_cons, List.count_cons]
      omega
    · have := ih s
      simp only [List.map_cons, List.count_cons]
      omega

theorem dispatchIdx_dontRun (c : Nat) (is : List Nat) (s : ISR_Timer)
    (i : Nat) (h : (nth s.timer i).toBeCalled = DefCall.dontRun) :
    nth (dispatchIdx c is s).1.timer i = nth s.timer i ∧
      i ∉ ((dispatchIdx c is s).2.map Dispatch.idx) := by
  induction is generalizing s with
  | nil => simp [dispatchIdx]
  | cons j js ih =>
    rw [dispatchIdx_cons]
    have hne : (nth s.timer j).toBeCalled ≠ DefCall.dontRun → j ≠ i := by
      intro h1 hc
      subst hc
      exact h1 h
    split_ifs with h1 h2
    · exact ih s h
    · have hji := hne h1
      have hpres : nth (deleteTimer s c j).timer i = nth s.timer i :=
        deleteTimer_nth_ne s c j i hji
      have hrec := ih (deleteTimer s c j) (by rw [hpres]; exact h)
      refine ⟨by rw [hrec.1, hpres], ?_⟩
      simp only [List.map_cons, List.mem_cons]
      rintro (hc | hc)
      · exact hji hc.symm
      · exact hrec.2 hc
    · have hji := hne h1
      have hrec := ih s h
      refine ⟨hrec.1, ?_⟩
      simp only [List.map_cons, List.mem_cons]
      rintro (hc | hc)
      · exact hji hc.symm
      · exact hrec.2 hc

theorem dispatchIdx_Inv (c : Nat) (is : List Nat) (s : ISR_Timer)
    (hs : Inv s) : Inv (dispatchIdx c is s).1 := by
  induction is generalizing s with
  | nil => exact hs
  | cons j js ih =>
    rw [dispatchIdx_cons]
    split_ifs with h1 h2
    · exact ih s hs
    · exact ih _ (deleteTimer_Inv s c j hs)
    · exact ih s hs

theorem nth_map (f : timer_t → timer_t) (l : List timer_t) (i : Nat)
    (hi : i < l.length) : nth (l.map f) i = f (nth l i) := by
  induction l generalizing i with
  | nil => simp at hi
  | cons a m ih =>
    cases i with
    | zero => rfl
    | succ j => exact ih j (by simpa using hi)

theorem scanSlot_due_prev (c : Nat) (t t' : timer_t) (cb : Nat)
    (hcb : t.callback = some cb) (h0 : t.delay ≠ 0)
    (hdue : t.delay ≤ usub c t.prev_millis)
    (h : scanSlot c t = some t') : t'.prev_millis = advPrev c t := by
  unfold scanSlot at h
  simp only [hcb, hdue, h0, ge_iff_le, if_true, if_false, ite_true,
    ite_false, dite_eq_ite] at h
  split_ifs at h <;> (injection h with h; subst h; simp [advPrev])

theorem scanList_cnt (c : Nat) (l l' : List timer_t)
    (h : scanList c l = some l') : cnt inUse l' = cnt inUse l := by
  refine cnt_eq_of_nth inUse l' l (by rw [scanList_length c l l' h]) ?_
  intro j hj
  have hjl : j < l.length := by rw [← scanList_length c l l' h]; exact hj
  have := scanList_nth c l l' h j hjl
  have hfields := scanSlot_fields c (nth l j) (nth l' j) this
  simp [inUse, hfields.1]

theorem run_scan_exists (s : ISR_Timer) (now : Nat) (s' : ISR_Timer)
    (ds : List Dispatch) (h : run s now = some (s', ds)) :
    ∃ ts, scanList (now % W) s.timer = some ts := by
  unfold run at h
  cases hs : scanList (now % W) s.timer with
  | none => rw [hs] at h; exact absurd h (by simp)
  | some ts => exact ⟨ts, rfl⟩

theorem run_some (s : ISR_Timer) (now : Nat) (s' : ISR_Timer)
    (ds : List Dispatch) (ts : List timer_t)
    (hscan : scanList (now % W) s.timer = some ts)
    (h : run s now = some (s', ds)) :
    (s', ds) = dispatchIdx (now % W) (List.range MAX_NUMBER_TIMERS)
      { s with timer := ts } := by
  unfold run at h
  rw [hscan] at h
  exact (Option.some_inj.mp h).symm

theorem run_Inv (s : ISR_Timer) (now : Nat) (s' : ISR_Timer)
    (ds : List Dispatch) (hs : Inv s) (h : run s now = some (s', ds)) :
    Inv s' := by
  obtain ⟨ts, hscan⟩ := run_scan_exists s now s' ds h
  have hd := run_some s now s' ds ts hscan h
  have hmid : Inv { s with timer := ts } := by
    refine ⟨?_, ?_⟩
    · simpa [scanList_length (now % W) s.timer ts hscan] using hs.1
    · simpa [scanList_cnt (now % W) s.timer ts hscan] using hs.2
  have := dispatchIdx_Inv (now % W) (List.range MAX_NUMBER_TIMERS)
    { s with timer := ts } hmid
  rw [← hd] at this
  exact this

theorem dispatchIdx_not_in (c : Nat) (is : List Nat) (s : ISR_Timer)
    (i : Nat) (h : i ∉ is) :
    nth (dispatchIdx c is s).1.timer i = nth s.timer i := by
  induction is generalizing s with
  | nil => simp [dispatchIdx]
  | cons j js ih =>
    have hji : j ≠ i := fun hc => h (by simp [hc])
    have hrest : i ∉ js := fun hc => h (by simp [hc])
    rw [dispatchIdx_cons]
    split_ifs with h1 h2
    · exact ih s hrest
    · rw [ih (deleteTimer s c j) hrest]
      exact deleteTimer_nth_ne s c j i hji
    · exact ih s hrest

theorem dispatchIdx_marked (c : Nat) (is : List Nat) (s : ISR_Timer)
    (i : Nat) (hcount : is.count i = 1)
    (hmark : (nth s.timer i).toBeCalled ≠ DefCall.dontRun) :
    ((dispatchIdx c is s).2.map Dispatch.idx).count i = 1 ∧
      ((nth s.timer i).toBeCalled = DefCall.runOnly →
        nth (dispatchIdx c is s).1.timer i = nth s.timer i) ∧
      ((nth s.timer i).toBeCalled = DefCall.runAndDel → Inv s →
        i < MAX_NUMBER_TIMERS → (nth s.timer i).callback ≠ none →
        nth (dispatchIdx c is s).1.timer i = freshSlot c) := by
  induction is generalizing s with
  | nil => simp at hcount
  | cons j js ih =>
    by_cases hji : j = i
    · subst hji
      have hnotin : j ∉ js := by
        simp [List.count_cons] at hcount
        exact List.count_eq_zero.mp hcount
      rw [dispatchIdx_cons]
      split_ifs with h1 h2
      · exact absurd h1 hmark
      · -- marked runAndDel: invoke then delete this very slot
        have hcnt0 : ((dispatchIdx c js (deleteTimer s c j)).2.map
            Dispatch.idx).count j = 0 := by
          have := dispatchIdx_count_le c js (deleteTimer s c j) j
          have hz : js.count j = 0 := List.count_eq_zero.mpr hnotin
          omega
        refine ⟨?_, ?_, ?_⟩
        · simp [List.count_cons, hcnt0]
        · intro hro
          rw [hro] at h2
          simp at h2
        · intro _ hinv _ hcb
          rw [dispatchIdx_not_in c js (deleteTimer s c j) j hnotin]
          have hnz : s.numTimers ≠ 0 := by
            obtain ⟨hlen, hcnt⟩ := hinv
            have : 0 < cnt inUse s.timer := by
              refine cnt_pos_of_nth inUse s.timer j (by omega) ?_
              simp [inUse, Option.isSome_iff_ne_none, hcb]
            omega
          rw [deleteTimer_inuse s c j (by omega) hnz hcb]
          exact nth_set_self s.timer j (freshSlot c)
            (by have := hinv.1; omega)
      · -- marked runOnly: invoke, state untouched at this step
        have hcnt0 : ((dispatchIdx c js s).2.map Dispatch.idx).count j
            = 0 := by
          have := dispatchIdx_count_le c js s j
          have hz : js.count j = 0 := List.count_eq_zero.mpr hnotin
          omega
        refine ⟨by simp [List.count_cons, hcnt0], ?_, ?_⟩
        · intro _; exact dispatchIdx_not_in c js s j hnotin
        · intro hra; exact absurd hra h2
    · have hcnt' : js.count i = 1 := by
        simpa [List.count_cons, hji, Ne.symm] using hcount
      rw [dispatchIdx_cons]
      split_ifs with h1 h2
      · exact ih s hcnt' hmark
      · have hpres : nth (deleteTimer s c j).timer i = nth s.timer i :=
          deleteTimer_nth_ne s c j i hji
        have hrec := ih (deleteTimer s c j)
          hcnt' (by rw [hpres]; exact hmark)
        refine ⟨by simpa [List.count_cons, hji] using hrec.1, ?_, ?_⟩
        · intro hro
          rw [hrec.2.1 (by rw [hpres]; exact hro), hpres]
        · intro hra hinv hilt hcb
          rw [hrec.2.2 (by rw [hpres]; exact hra)
            (deleteTimer_Inv s c j hinv) hilt (by rw [hpres]; exact hcb)]
      · have hrec := ih s hcnt' hmark
        exact ⟨by simpa [List.count_cons, hji] using hrec.1,
          hrec.2.1, hrec.2.2⟩

theorem getNumTimers_of_Inv (s : ISR_Timer) (hs : Inv s) :
    getNumTimers s = cnt inUse s.timer := by
  obtain ⟨hlen, hcnt⟩ := hs
  have hle : cnt inUse s.timer ≤ MAX_NUMBER_TIMERS := by
    have := cnt_le_length inUse s.timer
    omega
  unfold getNumTimers
  rw [hcnt]
  have hWlt : (cnt inUse s.timer : Int) < (W : Int) := by
    have : (MAX_NUMBER_TIMERS : Int) < (W : Int) := by decide
    omega
  rw [Int.emod_eq_of_lt (by omega) hWlt]
  simp

/-! ### Success and failure characterizations of `setupTimer` -/

theorem setupTimer_success (s : ISR_Timer) (now d : Nat) (cb : Nat)
    (p : Nat) (h : Bool) (n : Nat) (i : Nat)
    (hge : ¬ s.numTimers < 0)
    (hnum : ¬ s.numTimers ≥ (MAX_NUMBER_TIMERS : Int))
    (hfi : firstFreeIdx s.timer = some i) :
    setupTimer s now d (some cb) p h n =
      ((i : Int),
       { s with
         timer := s.timer.set i
           (populatedSlot (nth s.timer i) now d (some cb) p h n),
         numTimers := s.numTimers + 1 }) := by
  unfold setupTimer findFirstFreeSlot
  simp [hge, hnum, hfi, Int.not_lt.mpr (Int.natCast_nonneg i)]

theorem setupTimer_fail_full (s : ISR_Timer) (now d : Nat) (f : Option Nat)
    (p : Nat) (h : Bool) (n : Nat)
    (hge : ¬ s.numTimers < 0)
    (hnum : s.numTimers ≥ (MAX_NUMBER_TIMERS : Int)) :
    setupTimer s now d f p h n = (-1, s) := by
  unfold setupTimer findFirstFreeSlot
  simp [hge, hnum]

theorem setupTimer_fail_none (s : ISR_Timer) (now d : Nat)
    (p : Nat) (h : Bool) (n : Nat) (hge : ¬ s.numTimers < 0) :
    setupTimer s now d none p h n = (-1, s) := by
  unfold setupTimer
  simp only [hge, if_false, ite_false]
  split_ifs <;> rfl

theorem setupTimer_fail_nofree (s : ISR_Timer) (now d : Nat)
    (f : Option Nat) (p : Nat) (h : Bool) (n : Nat)
    (hge : ¬ s.numTimers < 0)
    (hfi : firstFreeIdx s.timer = none) :
    setupTimer s now d f p h n = (-1, s) := by
  unfold setupTimer findFirstFreeSlot
  by_cases hnum : s.numTimers ≥ (MAX_NUMBER_TIMERS : Int) <;>
    simp [hge, hnum, hfi]

/-! ### Preservation of the invariant by every operation -/

theorem cnt_set_congr (p : timer_t → Bool) (l : List timer_t) (i : Nat)
    (t : timer_t) (hi : i < l.length) (hp : p t = p (nth l i)) :
    cnt p (l.set i t) = cnt p l := by
  have := cnt_set p l i t hi
  rw [hp] at this
  omega

theorem init_Inv (now : Nat) : Inv (init now) := by
  refine ⟨by simp [init], ?_⟩
  simp [init, cnt_replicate inUse MAX_NUMBER_TIMERS (freshSlot now)
    (by simp [inUse, freshSlot, timer_t.zero])]

theorem setupTimer_Inv (s : ISR_Timer) (now d : Nat) (f : Option Nat)
    (p : Nat) (h : Bool) (n : Nat) (hs : Inv s) :
    Inv (setupTimer s now d f p h n).2 := by
  obtain ⟨hlen, hcnt⟩ := hs
  have hge : ¬ s.numTimers < 0 := by
    have h0 : (0 : Int) ≤ (cnt inUse s.timer : Int) := Int.natCast_nonneg _
    omega
  by_cases hnum : s.numTimers ≥ (MAX_NUMBER_TIMERS : Int)
  · rw [setupTimer_fail_full s now d f p h n hge hnum]
    exact ⟨hlen, hcnt⟩
  · cases hfi : firstFreeIdx s.timer with
    | none =>
      rw [setupTimer_fail_nofree s now d f p h n hge hfi]
      exact ⟨hlen, hcnt⟩
    | some i =>
      cases f with
      | none =>
        rw [setupTimer_fail_none s now d p h n hge]
        exact ⟨hlen, hcnt⟩
      | some cb =>
        rw [setupTimer_success s now d cb p h n i hge hnum hfi]
        obtain ⟨hilt, hfree, _⟩ := firstFreeIdx_spec s.timer i hfi
        have hflip := cnt_flip inUse
          (s.timer.set i
            (populatedSlot (nth s.timer i) now d (some cb) p h n))
          s.timer i (by simp) (by simpa using hilt)
          (by simp [nth_set_self _ _ _ hilt, inUse, populatedSlot])
          (by simp [inUse, hfree])
          (fun j hj hne => by
            simp [nth_set_ne _ _ _ _ (fun hc => hne hc.symm)])
        refine ⟨by simpa using hlen, ?_⟩
        simp only at hflip ⊢
        omega

theorem changeInterval_oob (s : ISR_Timer) (now id d : Nat)
    (hid : MAX_NUMBER_TIMERS ≤ id) :
    changeInterval s now id d = (false, s) := by
  unfold changeInterval
  simp [hid]

theorem changeInterval_unused (s : ISR_Timer) (now id d : Nat)
    (hid : id < MAX_NUMBER_TIMERS)
    (hcb : (nth s.timer id).callback = none) :
    changeInterval s now id d = (false, s) := by
  unfold changeInterval
  simp [Nat.not_le.mpr hid, hcb]

theorem changeInterval_used (s : ISR_Timer) (now id d : Nat)
    (hid : id < MAX_NUMBER_TIMERS)
    (hcb : (nth s.timer id).callback ≠ none) :
    changeInterval s now id d =
      (true, { s with
               timer := s.timer.set id
                 { nth s.timer id with
                   delay := d % W, prev_millis := now % W } }) := by
  unfold changeInterval
  simp [Nat.not_le.mpr hid, hcb]

theorem changeInterval_Inv (s : ISR_Timer) (now id d : Nat) (hs : Inv s) :
    Inv (changeInterval s now id d).2 := by
  obtain ⟨hlen, hcnt⟩ := hs
  by_cases hid : id < MAX_NUMBER_TIMERS
  · by_cases hcb : (nth s.timer id).callback = none
    · rw [changeInterval_unused s now id d hid hcb]
      exact ⟨hlen, hcnt⟩
    · rw [changeInterval_used s now id d hid hcb]
      refine ⟨by simpa using hlen, ?_⟩
      rw [cnt_set_congr inUse s.timer id _ (by omega) (by simp [inUse])]
      exact hcnt
  · rw [changeInterval_oob s now id d (by omega)]
    exact ⟨hlen, hcnt⟩

theorem restartTimer_eq (s : ISR_Timer) (now id : Nat)
    (hid : id < MAX_NUMBER_TIMERS) :
    restartTimer s now id =
      { s with
        timer := s.timer.set id
          { nth s.timer id with prev_millis := now % W } } := by
  unfold restartTimer
  simp [Nat.not_le.mpr hid]

theorem restartTimer_oob (s : ISR_Timer) (now id : Nat)
    (hid : MAX_NUMBER_TIMERS ≤ id) : restartTimer s now id = s := by
  unfold restartTimer
  simp [hid]

theorem restartTimer_Inv (s : ISR_Timer) (now id : Nat) (hs : Inv s) :
    Inv (restartTimer s now id) := by
  obtain ⟨hlen, hcnt⟩ := hs
  by_cases hid : id < MAX_NUMBER_TIMERS
  · rw [restartTimer_eq s now id hid]
    refine ⟨by simpa using hlen, ?_⟩
    rw [cnt_set_congr inUse s.timer id _ (by omega) (by simp [inUse])]
    exact hcnt
  · rw [restartTimer_oob s now id (by omega)]
    exact ⟨hlen, hcnt⟩

theorem enable_eq (s : ISR_Timer) (id : Nat)
    (hid : id < MAX_NUMBER_TIMERS) :
    enable s id =
      { s with
        timer := s.timer.set id
          { nth s.timer id with enabled := true } } := by
  unfold enable
  simp [Nat.not_le.mpr hid]

theorem enable_oob (s : ISR_Timer) (id : Nat)
    (hid : MAX_NUMBER_TIMERS ≤ id) : enable s id = s := by
  unfold enable
  simp [hid]

theorem enable_Inv (s : ISR_Timer) (id : Nat) (hs : Inv s) :
    Inv (enable s id) := by
  obtain ⟨hlen, hcnt⟩ := hs
  by_cases hid : id < MAX_NUMBER_TIMERS
  · rw [enable_eq s id hid]
    refine ⟨by simpa using hlen, ?_⟩
    rw [cnt_set_congr inUse s.timer id _ (by omega) (by simp [inUse])]
    exact hcnt
  · rw [enable_oob s id (by omega)]
    exact ⟨hlen, hcnt⟩

theorem disable_eq (s : ISR_Timer) (id : Nat)
    (hid : id < MAX_NUMBER_TIMERS) :
    disable s id =
      { s with
        timer := s.timer.set id
          { nth s.timer id with enabled := false } } := by
  unfold disable
  simp [Nat.not_le.mpr hid]

theorem disable_oob (s : ISR_Timer) (id : Nat)
    (hid : MAX_NUMBER_TIMERS ≤ id) : disable s id = s := by
  unfold disable
  simp [hid]

theorem disable_Inv (s : ISR_Timer) (id : Nat) (hs : Inv s) :
    Inv (disable s id) := by
  obtain ⟨hlen, hcnt⟩ := hs
  by_cases hid : id < MAX_NUMBER_TIMERS
  · rw [disable_eq s id hid]
    refine ⟨by simpa using hlen, ?_⟩
    rw [cnt_set_congr inUse s.timer id _ (by omega) (by simp [inUse])]
    exact hcnt
  · rw [disable_oob s id (by omega)]
    exact ⟨hlen, hcnt⟩

theorem toggle_eq (s : ISR_Timer) (id : Nat)
    (hid : id < MAX_NUMBER_TIMERS) :
    toggle s id =
      { s with
        timer := s.timer.set id
          { nth s.timer id with
            enabled := !(nth s.timer id).enabled } } := by
  unfold toggle
  simp [Nat.not_le.mpr hid]

theorem toggle_oob (s : ISR_Timer) (id : Nat)
    (hid : MAX_NUMBER_TIMERS ≤ id) : toggle s id = s := by
  unfold toggle
  simp [hid]

theorem toggle_Inv (s : ISR_Timer) (id : Nat) (hs : Inv s) :
    Inv (toggle s id) := by
  obtain ⟨hlen, hcnt⟩ := hs
  by_cases hid : id < MAX_NUMBER_TIMERS
  · rw [toggle_eq s id hid]
    refine ⟨by simpa using hlen, ?_⟩
    rw [cnt_set_congr inUse s.timer id _ (by omega) (by simp [inUse])]
    exact hcnt
  · rw [toggle_oob s id (by omega)]
    exact ⟨hlen, hcnt⟩

theorem enableAll_Inv (s : ISR_Timer) (hs : Inv s) :
    Inv (enableAll s) := by
  obtain ⟨hlen, hcnt⟩ := hs
  refine ⟨by simpa [enableAll] using hlen, ?_⟩
  have : cnt inUse (enableAll s).timer = cnt inUse s.timer := by
    refine cnt_eq_of_nth inUse _ _ (by simp [enableAll]) ?_
    intro j hj
    have hjl : j < s.timer.length := by simpa [enableAll] using hj
    simp only [enableAll]
    rw [nth_map _ _ _ hjl]
    split_ifs <;> simp [inUse]
  rw [this]
  exact hcnt

theorem disableAll_Inv (s : ISR_Timer) (hs : Inv s) :
    Inv (disableAll s) := by
  obtain ⟨hlen, hcnt⟩ := hs
  refine ⟨by simpa [disableAll] using hlen, ?_⟩
  have : cnt inUse (disableAll s).timer = cnt inUse s.timer := by
    refine cnt_eq_of_nth inUse _ _ (by simp [disableAll]) ?_
    intro j hj
    have hjl : j < s.timer.length := by simpa [disableAll] using hj
    simp only [disableAll]
    rw [nth_map _ _ _ hjl]
    split_ifs <;> simp [inUse]
  rw [this]
  exact hcnt

theorem reachable_Inv (s : ISR_Timer) (h : Reachable s) : Inv s := by
  induction h with
  | initial now => exact init_Inv now
  | setup s now d f p h n _ ih => exact setupTimer_Inv s now d f p h n ih
  | tick s now s' ds _ hrun ih => exact run_Inv s now s' ds ih hrun
  | del s now i _ ih => exact deleteTimer_Inv s now i ih
  | restart s now i _ ih => exact restartTimer_Inv s now i ih
  | change s now i d _ ih => exact changeInterval_Inv s now i d ih
  | en s i _ ih => exact enable_Inv s i ih
  | dis s i _ ih => exact disable_Inv s i ih
  | tog s i _ ih => exact toggle_Inv s i ih
  | enAll s _ ih => exact enableAll_Inv s ih
  | disAll s _ ih => exact disableAll_Inv s ih

/-! ### Registration into a compactly-filled scheduler (for capacity) -/

theorem setupTimer_compact (s : ISR_Timer) (j : Nat) (a : RegArgs)
    (hlen : s.timer.length = MAX_NUMBER_TIMERS)
    (hnum : s.numTimers = (j : Int)) (hj : j < MAX_NUMBER_TIMERS)
    (hbefore : ∀ k, k < j → (nth s.timer k).callback ≠ none)
    (hafter : ∀ k, j ≤ k → k < MAX_NUMBER_TIMERS →
      (nth s.timer k).callback = none)
    (hf : a.f ≠ none) :
    (setupTimer s a.now a.d a.f a.p a.h a.n).1 = (j : Int) ∧
    (setupTimer s a.now a.d a.f a.p a.h a.n).2.timer.length =
      MAX_NUMBER_TIMERS ∧
    (setupTimer s a.now a.d a.f a.p a.h a.n).2.numTimers = ((j + 1 : Nat) : Int) ∧
    (∀ k, k < j + 1 →
      (nth (setupTimer s a.now a.d a.f a.p a.h a.n).2.timer k).callback
        ≠ none) ∧
    (∀ k, j + 1 ≤ k → k < MAX_NUMBER_TIMERS →
      (nth (setupTimer s a.now a.d a.f a.p a.h a.n).2.timer k).callback
        = none) := by
  obtain ⟨cb, hcb⟩ := Option.ne_none_iff_exists'.mp hf
  have hge : ¬ s.numTimers < 0 := by omega
  have hnum16 : ¬ s.numTimers ≥ (MAX_NUMBER_TIMERS : Int) := by
    have : (j : Int) < (MAX_NUMBER_TIMERS : Int) := by exact_mod_cast hj
    omega
  have hfi : firstFreeIdx s.timer = some j :=
    firstFreeIdx_eq_some s.timer j (by omega)
      (hafter j (le_refl j) hj) hbefore
  rw [hcb]
  rw [setupTimer_success s a.now a.d cb a.p a.h a.n j hge hnum16 hfi]
  refine ⟨rfl, by simpa using hlen, by simp [hnum], ?_, ?_⟩
  · intro k hk
    by_cases hkj : k = j
    · subst hkj
      rw [nth_set_self s.timer k _ (by omega)]
      simp [populatedSlot]
    · rw [nth_set_ne s.timer j k _ (fun hc => hkj hc.symm)]
      exact hbefore k (by omega)
  · intro k hk1 hk2
    rw [nth_set_ne s.timer j k _ (by omega)]
    exact hafter k (by omega) hk2

theorem regMany_compact (args : List RegArgs) : ∀ (s : ISR_Timer) (j : Nat),
    s.timer.length = MAX_NUMBER_TIMERS → s.numTimers = (j : Int) →
    j + args.length ≤ MAX_NUMBER_TIMERS →
    (∀ k, k < j → (nth s.timer k).callback ≠ none) →
    (∀ k, j ≤ k → k < MAX_NUMBER_TIMERS →
      (nth s.timer k).callback = none) →
    (∀ a ∈ args, a.f ≠ none) →
    (regMany s args).1 = (List.range' j args.length).map (fun k => (k : Int)) ∧
    (regMany s args).2.timer.length = MAX_NUMBER_TIMERS ∧
    (regMany s args).2.numTimers = ((j + args.length : Nat) : Int) ∧
    (∀ k, k < j + args.length →
      (nth (regMany s args).2.timer k).callback ≠ none) ∧
    (∀ k, j + args.length ≤ k → k < MAX_NUMBER_TIMERS →
      (nth (regMany s args).2.timer k).callback = none) := by
  induction args with
  | nil =>
    intro s j hlen hnum hcap hbefore hafter hall
    refine ⟨by simp [regMany], hlen, by simpa using hnum, ?_, ?_⟩
    · intro k hk
      simp only [List.length_nil, Nat.add_zero] at hk
      exact hbefore k hk
    · intro k hk1 hk2
      simp only [List.length_nil, Nat.add_zero] at hk1
      exact hafter k hk1 hk2
  | cons a as ih =>
    intro s j hlen hnum hcap hbefore hafter hall
    have hstep := setupTimer_compact s j a hlen hnum
      (by simp at hcap; omega) hbefore hafter
      (hall a (by simp))
    obtain ⟨hres, hlen1, hnum1, hbefore1, hafter1⟩ := hstep
    have hrec := ih (setupTimer s a.now a.d a.f a.p a.h a.n).2 (j + 1)
      hlen1 hnum1 (by simp at hcap ⊢; omega) hbefore1 hafter1
      (fun b hb => hall b (by simp [hb]))
    obtain ⟨hres2, hlen2, hnum2, hbefore2, hafter2⟩ := hrec
    refine ⟨?_, hlen2, by simpa [Nat.add_assoc, Nat.add_comm,
      Nat.add_left_comm] using hnum2, ?_, ?_⟩
    · simp only [regMany, hres, hres2, List.length_cons]
      rw [List.range'_succ]
      simp
    · intro k hk
      refine hbefore2 k (by simp at hk ⊢; omega)
    · intro k hk1 hk2
      refine hafter2 k (by simp at hk1 ⊢; omega) hk2

/-! ### One `run` step of an armed finite-count timer -/

theorem run_armed_step (s : ISR_Timer) (now i c d n k : Nat)
    (s' : ISR_Timer) (ds : List Dispatch)
    (hinv : Inv s) (hi : i < MAX_NUMBER_TIMERS)
    (hnf : n ≠ TIMER_RUN_FOREVER) (hnW : n < W) (hk : k < n)
    (harm : armed s i c d n k)
    (hrun : run s now = some (s', ds)) :
    Inv s' ∧
    (((ds.map Dispatch.idx).count i = 0 ∧ armed s' i c d n k) ∨
     ((ds.map Dispatch.idx).count i = 1 ∧
       (k + 1 < n → armed s' i c d n (k + 1)) ∧
       (k + 1 = n → (nth s'.timer i).callback = none))) := by
  obtain ⟨hcb, hdel, hmax, hen, hnr⟩ := harm
  obtain ⟨ts, hscan⟩ := run_scan_exists s now s' ds hrun
  have hdisp := run_some s now s' ds ts hscan hrun
  have hinv' := run_Inv s now s' ds hinv hrun
  have hil : i < s.timer.length := by rw [hinv.1]; exact hi
  have hscani := scanList_nth (now % W) s.timer ts hscan i hil
  have hmid : Inv { s with timer := ts } := by
    refine ⟨?_, ?_⟩
    · simpa [scanList_length (now % W) s.timer ts hscan] using hinv.1
    · simpa [scanList_cnt (now % W) s.timer ts hscan] using hinv.2
  have hd0 : (nth s.timer i).delay ≠ 0 := by
    intro hzero
    have : scanSlot (now % W) (nth s.timer i) = none := by
      rw [scanSlot_none_iff]
      exact ⟨by simp [hcb], hzero⟩
    rw [this] at hscani
    exact absurd hscani (by simp)
  have hcount1 : (List.range MAX_NUMBER_TIMERS).count i = 1 :=
    List.count_eq_one_of_mem (List.nodup_range _) (List.mem_range.mpr hi)
  refine ⟨hinv', ?_⟩
  by_cases hdue :
      (nth s.timer i).delay ≤ usub (now % W) (nth s.timer i).prev_millis
  · -- the slot is due: it fires once
    have hstep := scanSlot_finite_step (now % W) (nth s.timer i) c hcb hen
      hd0 hdue (by rw [hmax]; exact hnf) (by rw [hnr, hmax]; exact hk)
      (by rw [hnr]; omega)
    rw [hstep] at hscani
    have hts : nth ts i = { nth s.timer i with
      prev_millis := advPrev (now % W) (nth s.timer i),
      numRuns := (nth s.timer i).numRuns + 1,
      toBeCalled := if (nth s.timer i).maxNumRuns ≤
          (nth s.timer i).numRuns + 1 then DefCall.runAndDel
        else DefCall.runOnly } := (Option.some_inj.mp hscani).symm
    have hmidnth : nth ({ s with timer := ts } : ISR_Timer).timer i
        = nth ts i := rfl
    have hmark : (nth ({ s with timer := ts } : ISR_Timer).timer i).toBeCalled
        ≠ DefCall.dontRun := by
      rw [hmidnth, hts]
      split_ifs <;> simp
    have hmarked := dispatchIdx_marked (now % W)
      (List.range MAX_NUMBER_TIMERS) { s with timer := ts } i hcount1 hmark
    right
    refine ⟨?_, ?_, ?_⟩
    · have := hmarked.1
      rw [← hdisp] at this
      exact this
    · intro hlt
      have hro : (nth ({ s with timer := ts } : ISR_Timer).timer i).toBeCalled
          = DefCall.runOnly := by
        rw [hmidnth, hts]
        simp only
        rw [if_neg (by rw [hmax, hnr]; omega)]
      have hfin := hmarked.2.1 hro
      rw [← hdisp] at hfin
      simp only at hfin
      refine ⟨?_, ?_, ?_, ?_, ?_⟩ <;> rw [hfin, hmidnth, hts] <;>
        simp [hcb, hdel, hmax, hen, hnr]
    · intro heq
      have hra : (nth ({ s with timer := ts } : ISR_Timer).timer i).toBeCalled
          = DefCall.runAndDel := by
        rw [hmidnth, hts]
        simp only
        rw [if_pos (by rw [hmax, hnr]; omega)]
      have hfin := hmarked.2.2 hra hmid hi
        (by rw [hmidnth, hts]; simp [hcb])
      rw [← hdisp] at hfin
      simp only at hfin
      rw [hfin]
      simp [freshSlot, timer_t.zero]
  · -- not yet due: nothing happens to the slot
    have hstep := scanSlot_not_due (now % W) (nth s.timer i) c hcb
      (by omega)
    rw [hstep] at hscani
    have hts : nth ts i = { nth s.timer i with
        toBeCalled := DefCall.dontRun } := (Option.some_inj.mp hscani).symm
    have hdr := dispatchIdx_dontRun (now % W)
      (List.range MAX_NUMBER_TIMERS) { s with timer := ts } i
      (by show (nth ts i).toBeCalled = DefCall.dontRun; rw [hts])
    left
    constructor
    · have := hdr.2
      rw [← hdisp] at this
      simp only at this
      exact List.count_eq_zero.mpr this
    · have hfin := hdr.1
      rw [← hdisp] at hfin
      simp only at hfin
      refine ⟨?_, ?_, ?_, ?_, ?_⟩ <;>
        rw [show nth s'.timer i = nth ts i from hfin, hts] <;>
        simp [hcb, hdel, hmax, hen, hnr]

/-- One `run` step of a state whose slot `i` is free leaves it free and
never dispatches it. -/
theorem run_free_step (s : ISR_Timer) (now i : Nat)
    (s' : ISR_Timer) (ds : List Dispatch)
    (hinv : Inv s) (hi : i < MAX_NUMBER_TIMERS)
    (hcb : (nth s.timer i).callback = none)
    (hrun : run s now = some (s', ds)) :
    Inv s' ∧ (nth s'.timer i).callback = none ∧
      (ds.map Dispatch.idx).count i = 0 := by
  obtain ⟨ts, hscan⟩ := run_scan_exists s now s' ds hrun
  have hdisp := run_some s now s' ds ts hscan hrun
  have hinv' := run_Inv s now s' ds hinv hrun
  have hil : i < s.timer.length := by rw [hinv.1]; exact hi
  have hscani := scanList_nth (now % W) s.timer ts hscan i hil
  rw [scanSlot_free (now % W) (nth s.timer i) hcb] at hscani
  have hts : nth ts i = { nth s.timer i with
      toBeCalled := DefCall.dontRun } := (Option.some_inj.mp hscani).symm
  have hdr := dispatchIdx_dontRun (now % W)
    (List.range MAX_NUMBER_TIMERS) { s with timer := ts } i
    (by show (nth ts i).toBeCalled = DefCall.dontRun; rw [hts])
  refine ⟨hinv', ?_, ?_⟩
  · have hfin := hdr.1
    rw [← hdisp] at hfin
    simp only at hfin
    rw [show nth s'.timer i = nth ts i from hfin, hts]
    simpa using hcb
  · have := hdr.2
    rw [← hdisp] at this
    simp only at this
    exact List.count_eq_zero.mpr this

theorem runSeq_free_all (i : Nat) (ts : List Nat) :
    ∀ (s s'' : ISR_Timer) (ds : List Dispatch),
    Inv s → i < MAX_NUMBER_TIMERS → (nth s.timer i).callback = none →
    runSeq s ts = some (s'', ds) →
    Inv s'' ∧ (nth s''.timer i).callback = none ∧
      (ds.map Dispatch.idx).count i = 0 := by
  induction ts with
  | nil =>
    intro s s'' ds hinv hi hcb hseq
    simp [runSeq] at hseq
    obtain ⟨h1, h2⟩ := hseq
    subst h1; subst h2
    exact ⟨hinv, hcb, by simp⟩
  | cons now rest ih =>
    intro s s'' ds hinv hi hcb hseq
    unfold runSeq at hseq
    cases hr : run s now with
    | none => simp [hr] at hseq
    | some r1 =>
      obtain ⟨s1, ds1⟩ := r1
      simp only [hr] at hseq
      cases hq : runSeq s1 rest with
      | none => simp [hq] at hseq
      | some r2 =>
        obtain ⟨s2, ds2⟩ := r2
        simp only [hq, Option.some_inj, Prod.mk.injEq] at hseq
        obtain ⟨hs'', hds⟩ := hseq
        subst hs''
        subst hds
        have hfree := run_free_step s now i s1 ds1 hinv hi hcb hr
        have hrec := ih s1 s2 ds2 hfree.1 hi hfree.2.1 hq
        refine ⟨hrec.1, hrec.2.1, ?_⟩
        simp [List.count_append, hfree.2.2, hrec.2.2]

theorem runSeq_armed (i c d n : Nat) (hnf : n ≠ TIMER_RUN_FOREVER)
    (hnW : n < W) (ts : List Nat) :
    ∀ (s : ISR_Timer) (k : Nat) (s'' : ISR_Timer) (ds : List Dispatch),
    Inv s → i < MAX_NUMBER_TIMERS → k < n → armed s i c d n k →
    runSeq s ts = some (s'', ds) →
    Inv s'' ∧ k + (ds.map Dispatch.idx).count i ≤ n ∧
    (k + (ds.map Dispatch.idx).count i < n →
      armed s'' i c d n (k + (ds.map Dispatch.idx).count i)) ∧
    (k + (ds.map Dispatch.idx).count i = n →
      (nth s''.timer i).callback = none) := by
  induction ts with
  | nil =>
    intro s k s'' ds hinv hi hk harm hseq
    simp [runSeq] at hseq
    obtain ⟨h1, h2⟩ := hseq
    subst h1; subst h2
    exact ⟨hinv, by simp; omega, fun _ => by simpa using harm,
      fun hc => by simp at hc; omega⟩
  | cons now rest ih =>
    intro s k s'' ds hinv hi hk harm hseq
    unfold runSeq at hseq
    cases hr : run s now with
    | none => simp [hr] at hseq
    | some r1 =>
      obtain ⟨s1, ds1⟩ := r1
      simp only [hr] at hseq
      cases hq : runSeq s1 rest with
      | none => simp [hq] at hseq
      | some r2 =>
        obtain ⟨s2, ds2⟩ := r2
        simp only [hq, Option.some_inj, Prod.mk.injEq] at hseq
        obtain ⟨hs'', hds⟩ := hseq
        subst hs''
        subst hds
        have hstep := run_armed_step s now i c d n k s1 ds1
          hinv hi hnf hnW hk harm hr
        rcases hstep.2 with ⟨hc0, harm1⟩ | ⟨hc1, hlt1, heq1⟩
        · have hrec := ih s1 k s2 ds2 hstep.1 hi hk harm1 hq
          refine ⟨hrec.1, ?_, ?_, ?_⟩ <;>
            simp only [List.map_append, List.count_append, hc0,
              Nat.zero_add] <;>
            [exact hrec.2.1; exact hrec.2.2.1; exact hrec.2.2.2]
        · by_cases hko : k + 1 < n
          · have hrec := ih s1 (k + 1) s2 ds2 hstep.1 hi hko
              (hlt1 hko) hq
            have harith : ∀ m : Nat, k + (1 + m) = (k + 1) + m := by omega
            refine ⟨hrec.1, ?_, ?_, ?_⟩ <;>
              simp only [List.map_append, List.count_append, hc1,
                harith] <;>
              [exact hrec.2.1; exact hrec.2.2.1; exact hrec.2.2.2]
          · have hkn : k + 1 = n := by omega
            have hfree := heq1 hkn
            have hrec := runSeq_free_all i rest s1 s2 ds2 hstep.1 hi
              hfree hq
            refine ⟨hrec.1, ?_, ?_, ?_⟩ <;>
              simp only [List.map_append, List.count_append, hc1,
                hrec.2.2]
            · omega
            · intro hc; omega
            · intro _; exact hrec.2.1

/-! ### The claims -/

/-- C10: on a scheduler that was constructed but never initialized (no
`init` call, no registration), `getNumTimers()` returns the signed sentinel
−1 converted to `unsigned`, i.e. `2^32 − 1`, not 0. -/
theorem C10_uninitialized_getNumTimers (garbage : List timer_t) :
    getNumTimers (construct garbage) = 2 ^ 32 - 1 := rfl

/-- C4: `enableAll` sets `enabled := true` (and `disableAll` sets
`enabled := false`) exactly on the slots whose callback is present AND whose
`numRuns` counter equals the `RUN_FOREVER` sentinel; every other slot is
left unchanged. -/
theorem C4_bulk_enable_disable_gate_on_numRuns (s : ISR_Timer) (i : Nat)
    (hi : i < s.timer.length) :
    ((nth s.timer i).callback ≠ none →
      (nth s.timer i).numRuns = TIMER_RUN_FOREVER →
      nth (enableAll s).timer i = { nth s.timer i with enabled := true } ∧
      nth (disableAll s).timer i =
        { nth s.timer i with enabled := false }) ∧
    ((nth s.timer i).callback = none ∨
        (nth s.timer i).numRuns ≠ TIMER_RUN_FOREVER →
      nth (enableAll s).timer i = nth s.timer i ∧
      nth (disableAll s).timer i = nth s.timer i) := by
  constructor
  · intro hcb hnr
    constructor
    · show nth (s.timer.map _) i = _
      rw [nth_map _ _ _ hi]
      simp [hnr, Option.isSome_iff_ne_none, hcb]
    · show nth (s.timer.map _) i = _
      rw [nth_map _ _ _ hi]
      simp [hnr, Option.isSome_iff_ne_none, hcb]
  · intro hgate
    constructor
    · show nth (s.timer.map _) i = _
      rw [nth_map _ _ _ hi]
      rcases hgate with hcb | hnr
      · simp [hcb]
      · simp [hnr]
    · show nth (s.timer.map _) i = _
      rw [nth_map _ _ _ hi]
      rcases hgate with hcb | hnr
      · simp [hcb]
      · simp [hnr]

/-- Witness for C4 at a concrete input: a freshly registered slot (whose
`numRuns` is 0 = `RUN_FOREVER`) is gated, and a free slot is unchanged. -/
theorem C4_witness :
    ((nth (setupTimer (init 0) 0 10 (some 7) 0 false 0).2.timer
        0).callback ≠ none →
      (nth (setupTimer (init 0) 0 10 (some 7) 0 false 0).2.timer
        0).numRuns = TIMER_RUN_FOREVER →
      nth (enableAll (setupTimer (init 0) 0 10 (some 7) 0 false 0).2).timer
          0 =
        { nth (setupTimer (init 0) 0 10 (some 7) 0 false 0).2.timer 0 with
          enabled := true } ∧
      nth (disableAll
            (setupTimer (init 0) 0 10 (some 7) 0 false 0).2).timer 0 =
        { nth (setupTimer (init 0) 0 10 (some 7) 0 false 0).2.timer 0 with
          enabled := false }) ∧
    ((nth (setupTimer (init 0) 0 10 (some 7) 0 false 0).2.timer
        0).callback = none ∨
      (nth (setupTimer (init 0) 0 10 (some 7) 0 false 0).2.timer
        0).numRuns ≠ TIMER_RUN_FOREVER →
      nth (enableAll (setupTimer (init 0) 0 10 (some 7) 0 false 0).2).timer
          0 = nth (setupTimer (init 0) 0 10 (some 7) 0 false 0).2.timer 0 ∧
      nth (disableAll
            (setupTimer (init 0) 0 10 (some 7) 0 false 0).2).timer 0 =
        nth (setupTimer (init 0) 0 10 (some 7) 0 false 0).2.timer 0) :=
  C4_bulk_enable_disable_gate_on_numRuns
    (setupTimer (init 0) 0 10 (some 7) 0 false 0).2 0 (by decide)

/-- C7: `changeInterval(id, newPeriod)` returns false and changes nothing
when `id` is out of range or the slot is unused; otherwise it returns true,
sets the slot's `delay` to the new period, resets its `prev_millis` to the
current time, and leaves every other field and every other slot (and
`numTimers`) unchanged. -/
theorem C7_changeInterval_contract (s : ISR_Timer) (now id d : Nat)
    (hlen : s.timer.length = MAX_NUMBER_TIMERS) :
    ((MAX_NUMBER_TIMERS ≤ id ∨ (nth s.timer id).callback = none) →
      changeInterval s now id d = (false, s)) ∧
    (id < MAX_NUMBER_TIMERS → (nth s.timer id).callback ≠ none → d < W →
      (changeInterval s now id d).1 = true ∧
      nth (changeInterval s now id d).2.timer id =
        { nth s.timer id with delay := d, prev_millis := now % W } ∧
      (∀ j, j ≠ id → nth (changeInterval s now id d).2.timer j =
        nth s.timer j) ∧
      (changeInterval s now id d).2.numTimers = s.numTimers) := by
  constructor
  · rintro (hid | hcb)
    · exact changeInterval_oob s now id d hid
    · by_cases hid : id < MAX_NUMBER_TIMERS
      · exact changeInterval_unused s now id d hid hcb
      · exact changeInterval_oob s now id d (by omega)
  · intro hid hcb hdW
    rw [changeInterval_used s now id d hid hcb]
    refine ⟨rfl, ?_, ?_, rfl⟩
    · show nth (s.timer.set id _) id = _
      rw [nth_set_self s.timer id _ (by omega), Nat.mod_eq_of_lt hdW]
    · intro j hj
      show nth (s.timer.set id _) j = _
      exact nth_set_ne s.timer id j _ (fun hc => hj hc.symm)

/-- Witness for C7 at a concrete input: out-of-range id fails, and updating
the registered slot 0 succeeds and rewrites exactly `delay`/`prev_millis`. -/
theorem C7_witness :
    ((MAX_NUMBER_TIMERS ≤ 0 ∨
      (nth (setupTimer (init 0) 0 10 (some 7) 0 false 0).2.timer
        0).callback = none) →
      changeInterval (setupTimer (init 0) 0 10 (some 7) 0 false 0).2 42 0 25
        = (false, (setupTimer (init 0) 0 10 (some 7) 0 false 0).2)) ∧
    (0 < MAX_NUMBER_TIMERS →
      (nth (setupTimer (init 0) 0 10 (some 7) 0 false 0).2.timer
        0).callback ≠ none → 25 < W →
      (changeInterval (setupTimer (init 0) 0 10 (some 7) 0 false 0).2 42 0
        25).1 = true ∧
      nth (changeInterval (setupTimer (init 0) 0 10 (some 7) 0 false 0).2
          42 0 25).2.timer 0 =
        { nth (setupTimer (init 0) 0 10 (some 7) 0 false 0).2.timer 0 with
          delay := 25, prev_millis := 42 % W } ∧
      (∀ j, j ≠ 0 →
        nth (changeInterval (setupTimer (init 0) 0 10 (some 7) 0 false
          0).2 42 0 25).2.timer j =
        nth (setupTimer (init 0) 0 10 (some 7) 0 false 0).2.timer j) ∧
      (changeInterval (setupTimer (init 0) 0 10 (some 7) 0 false 0).2 42 0
        25).2.numTimers =
        (setupTimer (init 0) 0 10 (some 7) 0 false 0).2.numTimers) :=
  C7_changeInterval_contract (setupTimer (init 0) 0 10 (some 7) 0 false 0).2
    42 0 25 (by decide)

/-- C8: every accessor/mutator called with an out-of-range id is a read of
`false` or a complete no-op, and `deleteTimer` on an in-range but free slot
is also a complete no-op (so `numTimers` is unchanged). -/
theorem C8_out_of_range_ops_are_noops (s : ISR_Timer) (now id : Nat)
    (hid : MAX_NUMBER_TIMERS ≤ id) :
    isEnabled s id = false ∧ enable s id = s ∧ disable s id = s ∧
    toggle s id = s ∧ restartTimer s now id = s ∧
    deleteTimer s now id = s ∧
    (∀ j, j < MAX_NUMBER_TIMERS → (nth s.timer j).callback = none →
      deleteTimer s now j = s) := by
  refine ⟨?_, enable_oob s id hid, disable_oob s id hid,
    toggle_oob s id hid, restartTimer_oob s now id hid, ?_, ?_⟩
  · unfold isEnabled
    simp [hid]
  · unfold deleteTimer
    simp [hid]
  · intro j _ hcb
    exact deleteTimer_free s now j hcb

/-- Witness for C8 at a concrete input: id 16 on a one-timer scheduler, and
`deleteTimer` of the free slot 1. -/
theorem C8_witness :
    isEnabled (setupTimer (init 0) 0 10 (some 7) 0 false 0).2 16 = false ∧
    enable (setupTimer (init 0) 0 10 (some 7) 0 false 0).2 16 =
      (setupTimer (init 0) 0 10 (some 7) 0 false 0).2 ∧
    disable (setupTimer (init 0) 0 10 (some 7) 0 false 0).2 16 =
      (setupTimer (init 0) 0 10 (some 7) 0 false 0).2 ∧
    toggle (setupTimer (init 0) 0 10 (some 7) 0 false 0).2 16 =
      (setupTimer (init 0) 0 10 (some 7) 0 false 0).2 ∧
    restartTimer (setupTimer (init 0) 0 10 (some 7) 0 false 0).2 42 16 =
      (setupTimer (init 0) 0 10 (some 7) 0 false 0).2 ∧
    deleteTimer (setupTimer (init 0) 0 10 (some 7) 0 false 0).2 42 16 =
      (setupTimer (init 0) 0 10 (some 7) 0 false 0).2 ∧
    (∀ j, j < MAX_NUMBER_TIMERS →
      (nth (setupTimer (init 0) 0 10 (some 7) 0 false 0).2.timer
        j).callback = none →
      deleteTimer (setupTimer (init 0) 0 10 (some 7) 0 false 0).2 42 j =
        (setupTimer (init 0) 0 10 (some 7) 0 false 0).2) :=
  C8_out_of_range_ops_are_noops
    (setupTimer (init 0) 0 10 (some 7) 0 false 0).2 42 16 (by decide)

/-- C6: in every state reachable from `init` by the public operations,
`numTimers` equals the number of slots whose callback is present, and never
exceeds `MAX_NUMBER_TIMERS`. -/
theorem C6_numTimers_invariant (s : ISR_Timer) (h : Reachable s) :
    s.numTimers = (cnt inUse s.timer : Int) ∧
    s.numTimers ≤ (MAX_NUMBER_TIMERS : Int) := by
  have hinv := reachable_Inv s h
  refine ⟨hinv.2, ?_⟩
  have h1 := cnt_le_length inUse s.timer
  have h2 := hinv.1
  rw [hinv.2]
  exact_mod_cast (by omega : cnt inUse s.timer ≤ MAX_NUMBER_TIMERS)

/-- Witness for C6 at a concrete reachable state: one registration after
`init`, then one tick. -/
theorem C6_witness :
    (setupTimer (init 0) 5 10 (some 7) 0 false 0).2.numTimers =
      (cnt inUse (setupTimer (init 0) 5 10 (some 7) 0 false 0).2.timer :
        Int) ∧
    (setupTimer (init 0) 5 10 (some 7) 0 false 0).2.numTimers ≤
      (MAX_NUMBER_TIMERS : Int) :=
  C6_numTimers_invariant (setupTimer (init 0) 5 10 (some 7) 0 false 0).2
    (Reachable.setup (init 0) 5 10 (some 7) 0 false 0
      (Reachable.initial 0))

/-- C9: registration does not enforce a positive period — `setupTimer`
accepts period 0 with a non-null callback and returns slot 0 — and a tick on
any state holding an in-use zero-period slot reaches the division by zero in
the scan (the run aborts with the error value of the model). -/
theorem C9_zero_period_division_by_zero (now0 now1 now2 p n cb : Nat)
    (h : Bool) (s : ISR_Timer) (i : Nat)
    (hi : i < s.timer.length)
    (hcb2 : (nth s.timer i).callback ≠ none)
    (hd0 : (nth s.timer i).delay = 0) :
    (setupTimer (init now0) now1 0 (some cb) p h n).1 = 0 ∧
    (nth (setupTimer (init now0) now1 0 (some cb) p h n).2.timer
      0).delay = 0 ∧
    (nth (setupTimer (init now0) now1 0 (some cb) p h n).2.timer
      0).callback = some cb ∧
    run s now2 = none := by
  have hge : ¬ (init now0).numTimers < 0 := by simp [init]
  have hnum : ¬ (init now0).numTimers ≥ (MAX_NUMBER_TIMERS : Int) := by
    simp [init]
    decide
  have hfi : firstFreeIdx (init now0).timer = some 0 := by
    refine firstFreeIdx_eq_some _ 0 (by simp [init]; decide) ?_ (by omega)
    show (nth (init now0).timer 0).callback = none
    rw [show (init now0).timer =
      List.replicate MAX_NUMBER_TIMERS (freshSlot now0) from rfl]
    rw [nth_replicate _ _ _ (by decide)]
    rfl
  have hsucc := setupTimer_success (init now0) now1 0 cb p h n 0 hge hnum
    hfi
  have hlen0 : (0 : Nat) < (init now0).timer.length := by
    simp [init]
    decide
  have hnone : scanList (now2 % W) s.timer = none := by
    refine scanList_none_of (now2 % W) s.timer i hi ?_
    exact (scanSlot_none_iff _ _).mpr ⟨hcb2, hd0⟩
  refine ⟨by rw [hsucc]; rfl, ?_, ?_, ?_⟩
  · rw [hsucc]
    show (nth ((init now0).timer.set 0 _) 0).delay = 0
    rw [nth_set_self _ _ _ hlen0]
    rfl
  · rw [hsucc]
    show (nth ((init now0).timer.set 0 _) 0).callback = some cb
    rw [nth_set_self _ _ _ hlen0]
    rfl
  · unfold run
    rw [hnone]

/-- Witness for C9 at a concrete input: register a zero-period timer into a
fresh scheduler; the next tick hits the division by zero. -/
theorem C9_witness :
    (setupTimer (init 0) 0 0 (some 7) 0 false 0).1 = 0 ∧
    (nth (setupTimer (init 0) 0 0 (some 7) 0 false 0).2.timer 0).delay
      = 0 ∧
    (nth (setupTimer (init 0) 0 0 (some 7) 0 false 0).2.timer 0).callback
      = some 7 ∧
    run (setupTimer (init 0) 0 0 (some 7) 0 false 0).2 5 = none :=
  C9_zero_period_division_by_zero 0 0 5 0 0 7 false
    (setupTimer (init 0) 0 0 (some 7) 0 false 0).2 0
    (by decide) (by decide) (by decide)

/-- C1: in the scan phase of a completed `run`, every in-use slot whose
wrapped elapsed time `now() - prevTick` has reached its `delay` gets its
`prev_millis` advanced by exactly `delay * (elapsed / delay)` (integer
division, wrapping mod `2^32`), and that slot is dispatched at most once in
that tick. -/
theorem C1_scan_advances_prev_by_whole_periods (s : ISR_Timer)
    (now i : Nat) (ts : List timer_t) (s' : ISR_Timer) (ds : List Dispatch)
    (hscan : scanList (now % W) s.timer = some ts)
    (hrun : run s now = some (s', ds))
    (hi : i < s.timer.length)
    (hcb : (nth s.timer i).callback ≠ none)
    (hdue : (nth s.timer i).delay ≤
      usub (now % W) (nth s.timer i).prev_millis) :
    (nth ts i).prev_millis =
      ((nth s.timer i).prev_millis +
        (nth s.timer i).delay *
          (usub (now % W) (nth s.timer i).prev_millis /
            (nth s.timer i).delay)) % W ∧
    (ds.map Dispatch.idx).count i ≤ 1 := by
  obtain ⟨cb, hcb'⟩ := Option.ne_none_iff_exists'.mp hcb
  have hscani := scanList_nth (now % W) s.timer ts hscan i hi
  have hd0 : (nth s.timer i).delay ≠ 0 := by
    intro hz
    have hn : scanSlot (now % W) (nth s.timer i) = none :=
      (scanSlot_none_iff _ _).mpr ⟨hcb, hz⟩
    rw [hn] at hscani
    exact absurd hscani (by simp)
  constructor
  · have := scanSlot_due_prev (now % W) (nth s.timer i) (nth ts i) cb
      hcb' hd0 hdue hscani
    simpa [advPrev] using this
  · have hdisp := run_some s now s' ds ts hscan hrun
    have hle := dispatchIdx_count_le (now % W)
      (List.range MAX_NUMBER_TIMERS) { s with timer := ts } i
    rw [← hdisp] at hle
    simp only at hle
    have hone : (List.range MAX_NUMBER_TIMERS).count i ≤ 1 :=
      List.nodup_iff_count_le_one.mp (List.nodup_range _) i
    omega

/-- Witness for C1 at the spec's own example: period 10, elapsed 35: the
slot is dispatched once and `prev_millis` advances to 30, not 35. -/
theorem C1_witness :
    (nth ({ prev_millis := 30, delay := 10, callback := some 7, param := 0,
            hasParam := false, maxNumRuns := 0, enabled := true,
            numRuns := 0, toBeCalled := DefCall.runOnly } ::
          List.replicate 15 (freshSlot 0)) 0).prev_millis =
      ((nth (setupTimer (init 0) 0 10 (some 7) 0 false 0).2.timer
        0).prev_millis +
        (nth (setupTimer (init 0) 0 10 (some 7) 0 false 0).2.timer
          0).delay *
          (usub (35 % W) (nth (setupTimer (init 0) 0 10 (some 7) 0 false
            0).2.timer 0).prev_millis /
            (nth (setupTimer (init 0) 0 10 (some 7) 0 false 0).2.timer
              0).delay)) % W ∧
    (([{ idx := 0, cb := some 7, hasParam := false, param := 0 }] :
        List Dispatch).map Dispatch.idx).count 0 ≤ 1 :=
  C1_scan_advances_prev_by_whole_periods
    (setupTimer (init 0) 0 10 (some 7) 0 false 0).2 35 0
    ({ prev_millis := 30, delay := 10, callback := some 7, param := 0,
       hasParam := false, maxNumRuns := 0, enabled := true, numRuns := 0,
       toBeCalled := DefCall.runOnly } :: List.replicate 15 (freshSlot 0))
    { timer :=
        { prev_millis := 30, delay := 10, callback := some 7, param := 0,
          hasParam := false, maxNumRuns := 0, enabled := true,
          numRuns := 0, toBeCalled := DefCall.runOnly } ::
          List.replicate 15 (freshSlot 0),
      numTimers := 1 }
    [{ idx := 0, cb := some 7, hasParam := false, param := 0 }]
    (by decide) (by decide) (by decide) (by decide) (by decide)

/-- C5: a disabled in-use slot is never dispatched by a tick: its mark stays
`DontRun`, its `numRuns` is unchanged, its `prev_millis` is still advanced
when it is past its deadline, it does not appear among the dispatched
callbacks, and the dispatch phase leaves the slot exactly as the scan left
it. -/
theorem C5_disabled_timer_never_dispatched (s : ISR_Timer) (now i : Nat)
    (ts : List timer_t) (s' : ISR_Timer) (ds : List Dispatch)
    (hscan : scanList (now % W) s.timer = some ts)
    (hrun : run s now = some (s', ds))
    (hi : i < s.timer.length)
    (hcb : (nth s.timer i).callback ≠ none)
    (hen : (nth s.timer i).enabled = false) :
    (nth ts i).toBeCalled = DefCall.dontRun ∧
    (nth ts i).numRuns = (nth s.timer i).numRuns ∧
    ((nth s.timer i).delay ≤
        usub (now % W) (nth s.timer i).prev_millis →
      (nth ts i).prev_millis = advPrev (now % W) (nth s.timer i)) ∧
    i ∉ ds.map Dispatch.idx ∧
    nth s'.timer i = nth ts i := by
  obtain ⟨cb, hcb'⟩ := Option.ne_none_iff_exists'.mp hcb
  have hscani := scanList_nth (now % W) s.timer ts hscan i hi
  have hd0 : (nth s.timer i).delay ≠ 0 := by
    intro hz
    have hn : scanSlot (now % W) (nth s.timer i) = none :=
      (scanSlot_none_iff _ _).mpr ⟨hcb, hz⟩
    rw [hn] at hscani
    exact absurd hscani (by simp)
  have hts : (nth ts i).toBeCalled = DefCall.dontRun ∧
      (nth ts i).numRuns = (nth s.timer i).numRuns ∧
      ((nth s.timer i).delay ≤
          usub (now % W) (nth s.timer i).prev_millis →
        (nth ts i).prev_millis = advPrev (now % W) (nth s.timer i)) := by
    by_cases hdue : (nth s.timer i).delay ≤
        usub (now % W) (nth s.timer i).prev_millis
    · rw [scanSlot_disabled_due (now % W) (nth s.timer i) cb hcb' hen hd0
        hdue] at hscani
      have h' := (Option.some_inj.mp hscani).symm
      rw [h']
      exact ⟨rfl, rfl, fun _ => rfl⟩
    · rw [scanSlot_not_due (now % W) (nth s.timer i) cb hcb'
        (by omega)] at hscani
      have h' := (Option.some_inj.mp hscani).symm
      rw [h']
      exact ⟨rfl, rfl, fun hc => absurd hc hdue⟩
  have hdisp := run_some s now s' ds ts hscan hrun
  have hdr := dispatchIdx_dontRun (now % W)
    (List.range MAX_NUMBER_TIMERS) { s with timer := ts } i
    (by show (nth ts i).toBeCalled = DefCall.dontRun; exact hts.1)
  refine ⟨hts.1, hts.2.1, hts.2.2, ?_, ?_⟩
  · have := hdr.2
    rw [← hdisp] at this
    simpa using this
  · have := hdr.1
    rw [← hdisp] at this
    simpa using this

/-- Witness for C5 at a concrete input: a disabled period-10 timer, 35 ms
late: `prev_millis` advances to 30 but nothing is dispatched. -/
theorem C5_witness :
    (nth ({ prev_millis := 30, delay := 10, callback := some 7, param := 0,
            hasParam := false, maxNumRuns := 0, enabled := false,
            numRuns := 0, toBeCalled := DefCall.dontRun } ::
          List.replicate 15 (freshSlot 0)) 0).toBeCalled =
        DefCall.dontRun ∧
    (nth ({ prev_millis := 30, delay := 10, callback := some 7, param := 0,
            hasParam := false, maxNumRuns := 0, enabled := false,
            numRuns := 0, toBeCalled := DefCall.dontRun } ::
          List.replicate 15 (freshSlot 0)) 0).numRuns =
      (nth (disable (setupTimer (init 0) 0 10 (some 7) 0 false 0).2
        0).timer 0).numRuns ∧
    ((nth (disable (setupTimer (init 0) 0 10 (some 7) 0 false 0).2
        0).timer 0).delay ≤
        usub (35 % W) (nth (disable (setupTimer (init 0) 0 10 (some 7) 0
          false 0).2 0).timer 0).prev_millis →
      (nth ({ prev_millis := 30, delay := 10, callback := some 7,
              param := 0, hasParam := false, maxNumRuns := 0,
              enabled := false, numRuns := 0,
              toBeCalled := DefCall.dontRun } ::
            List.replicate 15 (freshSlot 0)) 0).prev_millis =
        advPrev (35 % W) (nth (disable (setupTimer (init 0) 0 10 (some 7)
          0 false 0).2 0).timer 0)) ∧
    0 ∉ (([] : List Dispatch).map Dispatch.idx) ∧
    nth ({ timer :=
             { prev_millis := 30, delay := 10, callback := some 7,
               param := 0, hasParam := false, maxNumRuns := 0,
               enabled := false, numRuns := 0,
               toBeCalled := DefCall.dontRun } ::
               List.replicate 15 (freshSlot 0),
           numTimers := 1 } : ISR_Timer).timer 0 =
      nth ({ prev_millis := 30, delay := 10, callback := some 7,
             param := 0, hasParam := false, maxNumRuns := 0,
             enabled := false, numRuns := 0,
             toBeCalled := DefCall.dontRun } ::
           List.replicate 15 (freshSlot 0)) 0 :=
  C5_disabled_timer_never_dispatched
    (disable (setupTimer (init 0) 0 10 (some 7) 0 false 0).2 0) 35 0
    ({ prev_millis := 30, delay := 10, callback := some 7, param := 0,
       hasParam := false, maxNumRuns := 0, enabled := false, numRuns := 0,
       toBeCalled := DefCall.dontRun } :: List.replicate 15 (freshSlot 0))
    { timer :=
        { prev_millis := 30, delay := 10, callback := some 7, param := 0,
          hasParam := false, maxNumRuns := 0, enabled := false,
          numRuns := 0, toBeCalled := DefCall.dontRun } ::
          List.replicate 15 (freshSlot 0),
      numTimers := 1 }
    [] (by decide) (by decide) (by decide) (by decide) (by decide)

/-- C3: from a freshly initialized scheduler, `MAX_NUMBER_TIMERS`
registrations with non-null callbacks all succeed and return the distinct
slot ids 0, 1, …, capacity−1 (each the lowest free index at the time), and
one further registration returns −1 with the state unchanged. -/
theorem C3_capacity_fill_and_overflow (args : List RegArgs) (now0 : Nat)
    (b : RegArgs)
    (hlen16 : args.length = MAX_NUMBER_TIMERS)
    (hall : ∀ a ∈ args, a.f ≠ none) :
    (regMany (init now0) args).1 =
      (List.range MAX_NUMBER_TIMERS).map (fun k => (k : Int)) ∧
    setupTimer (regMany (init now0) args).2 b.now b.d b.f b.p b.h b.n =
      (-1, (regMany (init now0) args).2) := by
  have hfree0 : ∀ k, (0 : Nat) ≤ k → k < MAX_NUMBER_TIMERS →
      (nth (init now0).timer k).callback = none := by
    intro k _ hk
    show (nth (List.replicate MAX_NUMBER_TIMERS (freshSlot now0))
      k).callback = none
    rw [nth_replicate _ _ _ hk]
    rfl
  have h := regMany_compact args (init now0) 0 (by simp [init]) rfl
    (by rw [hlen16]; omega) (fun k hk => absurd hk (by omega)) hfree0 hall
  obtain ⟨hres, hlen, hnum, _, _⟩ := h
  constructor
  · rw [hres, hlen16, List.range_eq_range']
  · refine setupTimer_fail_full _ _ _ _ _ _ _ ?_ ?_
    · rw [hnum]
      exact Int.not_lt.mpr (Int.natCast_nonneg _)
    · rw [hnum, hlen16]
      exact_mod_cast (by omega : MAX_NUMBER_TIMERS ≤ 0 + MAX_NUMBER_TIMERS)

/-- Witness for C3 at a concrete input: 16 identical registrations fill
slots 0…15 and a 17th attempt fails with the state untouched. -/
theorem C3_witness :
    (regMany (init 0)
      (List.replicate 16 (⟨0, 10, some 7, 0, false, 0⟩ : RegArgs))).1 =
      (List.range MAX_NUMBER_TIMERS).map (fun k => (k : Int)) ∧
    setupTimer (regMany (init 0)
        (List.replicate 16 (⟨0, 10, some 7, 0, false, 0⟩ : RegArgs))).2
        (⟨1, 5, some 9, 0, false, 0⟩ : RegArgs).now
        (⟨1, 5, some 9, 0, false, 0⟩ : RegArgs).d
        (⟨1, 5, some 9, 0, false, 0⟩ : RegArgs).f
        (⟨1, 5, some 9, 0, false, 0⟩ : RegArgs).p
        (⟨1, 5, some 9, 0, false, 0⟩ : RegArgs).h
        (⟨1, 5, some 9, 0, false, 0⟩ : RegArgs).n =
      (-1, (regMany (init 0)
        (List.replicate 16 (⟨0, 10, some 7, 0, false, 0⟩ : RegArgs))).2) :=
  C3_capacity_fill_and_overflow
    (List.replicate 16 (⟨0, 10, some 7, 0, false, 0⟩ : RegArgs)) 0
    (⟨1, 5, some 9, 0, false, 0⟩ : RegArgs) (by decide) (by decide)

/-- C2: a timer registered with a finite target run count `n ≥ 1` that stays
enabled is dispatched at most `n` times over any sequence of ticks; while
fewer than `n` dispatches have happened it is still armed with `numRuns`
equal to the number of dispatches so far; once the count reaches `n` its
slot is free and `changeInterval` on its id fails; and the tick that
performs the `n`-th dispatch frees the slot within that same tick, so
`getNumTimers` drops by exactly one when no other slot changed allocation
in that tick. -/
theorem C2_finite_count_timer_fires_exactly_n
    (s : ISR_Timer) (i c d n : Nat) (ts : List Nat) (s'' : ISR_Timer)
    (ds : List Dispatch) (now2 d2 : Nat)
    (s1 : ISR_Timer) (now1 : Nat) (s2 : ISR_Timer) (ds1 : List Dispatch)
    (hinv : Inv s) (hi : i < MAX_NUMBER_TIMERS)
    (hn1 : 1 ≤ n) (hnW : n < W) (hnf : n ≠ TIMER_RUN_FOREVER)
    (harm : armed s i c d n 0)
    (hseq : runSeq s ts = some (s'', ds))
    (hinv1 : Inv s1) (harm1 : armed s1 i c d n (n - 1))
    (hrun1 : run s1 now1 = some (s2, ds1))
    (hfire1 : (ds1.map Dispatch.idx).count i = 1)
    (hoth : ∀ j, j < MAX_NUMBER_TIMERS → j ≠ i →
      inUse (nth s2.timer j) = inUse (nth s1.timer j)) :
    (ds.map Dispatch.idx).count i ≤ n ∧
    ((ds.map Dispatch.idx).count i < n →
      armed s'' i c d n ((ds.map Dispatch.idx).count i)) ∧
    ((ds.map Dispatch.idx).count i = n →
      (nth s''.timer i).callback = none ∧
      (changeInterval s'' now2 i d2).1 = false) ∧
    ((nth s2.timer i).callback = none ∧
      getNumTimers s2 + 1 = getNumTimers s1) := by
  have hmain := runSeq_armed i c d n hnf hnW ts s 0 s'' ds hinv hi
    (by omega) harm hseq
  have hstep := run_armed_step s1 now1 i c d n (n - 1) s2 ds1 hinv1 hi
    hnf hnW (by omega) harm1 hrun1
  have hinv2 := hstep.1
  have hfree2 : (nth s2.timer i).callback = none := by
    rcases hstep.2 with ⟨hc0, _⟩ | ⟨_, _, heq1⟩
    · omega
    · exact heq1 (by omega)
  refine ⟨by simpa using hmain.2.1, ?_, ?_, hfree2, ?_⟩
  · intro hlt
    have := hmain.2.2.1 (by simpa using hlt)
    simpa using this
  · intro heq
    have hfree := hmain.2.2.2 (by simpa using heq)
    refine ⟨hfree, ?_⟩
    rw [changeInterval_unused s'' now2 i d2 hi hfree]
  · have hlen1 := hinv1.1
    have hlen2 := hinv2.1
    obtain ⟨hcb1, _, _, _, _⟩ := harm1
    have hflip := cnt_flip inUse s1.timer s2.timer i
      (by rw [hlen1, hlen2]) (by rw [hlen1]; exact hi)
      (by simp [inUse, hcb1]) (by simp [inUse, hfree2])
      (fun j hj hne => (hoth j (by rw [← hlen1]; exact hj) hne).symm)
    rw [getNumTimers_of_Inv s1 hinv1, getNumTimers_of_Inv s2 hinv2]
    omega

/-- Witness for C2 at a concrete input: `maxNumRuns = 3`, period 10, ticks
at 10/20/30/40: exactly 3 dispatches, the slot is freed on the third, a
later `changeInterval` fails, and `getNumTimers` drops from 1 to 0 in the
tick of the third dispatch. -/
theorem C2_witness :
    (((List.replicate 3 ({ idx := 0, cb := some 7, hasParam := false, param := 0 } : Dispatch)).map Dispatch.idx).count 0 ≤ 3) ∧
    (((List.replicate 3 ({ idx := 0, cb := some 7, hasParam := false, param := 0 } : Dispatch)).map Dispatch.idx).count 0 < 3 →
      armed (ISR_Timer.mk (freshSlot 30 :: List.replicate 15 (freshSlot 0))
          0) 0 7 10 3
        (((List.replicate 3 ({ idx := 0, cb := some 7, hasParam := false, param := 0 } : Dispatch)).map Dispatch.idx).count 0)) ∧
    (((List.replicate 3 ({ idx := 0, cb := some 7, hasParam := false, param := 0 } : Dispatch)).map Dispatch.idx).count 0 = 3 →
      (nth (ISR_Timer.mk
          (freshSlot 30 :: List.replicate 15 (freshSlot 0)) 0).timer
        0).callback = none ∧
      (changeInterval (ISR_Timer.mk
          (freshSlot 30 :: List.replicate 15 (freshSlot 0)) 0)
        99 0 5).1 = false) ∧
    ((nth (ISR_Timer.mk
          (freshSlot 30 :: List.replicate 15 (freshSlot 0)) 0).timer
        0).callback = none ∧
      getNumTimers (ISR_Timer.mk
          (freshSlot 30 :: List.replicate 15 (freshSlot 0)) 0) + 1 =
        getNumTimers (ISR_Timer.mk
          (({ prev_millis := 0, delay := 10, callback := some 7,
              param := 0, hasParam := false, maxNumRuns := 3,
              enabled := true, numRuns := 2,
              toBeCalled := DefCall.dontRun } : timer_t) ::
            List.replicate 15 (freshSlot 0)) 1)) :=
  C2_finite_count_timer_fires_exactly_n
    (setupTimer (init 0) 0 10 (some 7) 0 false 3).2 0 7 10 3
    [10, 20, 30, 40]
    (ISR_Timer.mk (freshSlot 30 :: List.replicate 15 (freshSlot 0)) 0)
    (List.replicate 3 ({ idx := 0, cb := some 7, hasParam := false, param := 0 } : Dispatch))
    99 5
    (ISR_Timer.mk
      (({ prev_millis := 0, delay := 10, callback := some 7, param := 0,
          hasParam := false, maxNumRuns := 3, enabled := true,
          numRuns := 2, toBeCalled := DefCall.dontRun } : timer_t) ::
        List.replicate 15 (freshSlot 0)) 1)
    30
    (ISR_Timer.mk (freshSlot 30 :: List.replicate 15 (freshSlot 0)) 0)
    [{ idx := 0, cb := some 7, hasParam := false, param := 0 }]
    (by decide) (by decide) (by decide) (by decide) (by decide)
    (by decide) (by decide) (by decide) (by decide) (by decide)
    (by decide) (by decide)

end SoftTimer
